import Mathlib

set_option autoImplicit false
set_option maxRecDepth 40000

/-!
Verification of the `redis-lru` repository (leohowell/redis-lru).

The repository ships two parallel implementations of the same cache:
`redis_lru/lru.py` (class `RedisLRUCacheDict`, delimiter `"#=#"`, stat
fields `HIT/MISS/SET/DEL/POP/DUMPS_ERROR/LOADS_ERROR`) and
`redis_lru/__init__.py` (class `RedisLRUCacheDict`, delimiter `"#"`,
stat fields `hit/miss/set/del/serialize_error`, `hidden_exception`
flag).  Both are embedded below, as namespaces `LRU` and `Init`, over a
common model of the Redis state they manipulate.
-/

namespace RedisLRU

/-- Python values relevant to this cache.  Floats are restricted to
whole-valued floats (`float n` stands for the Python float `n.0`, whose
`repr` is `"n.0"`); `obj name` stands for an arbitrary object that
`json.dumps` cannot serialize (it raises `TypeError`), identified by its
`repr` text. Dictionary keys are restricted to strings, the only case
exercised by this repository. -/
inductive PyVal where
  | none
  | bool (b : Bool)
  | int (n : Int)
  | float (n : Int)
  | str (s : String)
  | list (xs : List PyVal)
  | tuple (xs : List PyVal)
  | dict (kvs : List (String × PyVal))
  | obj (name : String)

/-- JSON documents, as produced by `json.dumps` / consumed by
`json.loads`.  `jint`/`jfloat` are kept apart because `json.loads`
returns a Python int for `"1"` and a Python float for `"1.0"`. -/
inductive Json where
  | null
  | jbool (b : Bool)
  | jint (n : Int)
  | jfloat (n : Int)
  | jstr (s : String)
  | jarr (xs : List Json)
  | jobj (kvs : List (String × Json))

mutual
/-- `json.dumps`: serialize a Python value; `Option.none` models the
`TypeError` raised on a non-serializable object.  Python serializes
tuples and lists both as JSON arrays. -/
def dumps : PyVal → Option Json
  | .none => some .null
  | .bool b => some (.jbool b)
  | .int n => some (.jint n)
  | .float n => some (.jfloat n)
  | .str s => some (.jstr s)
  | .list xs => (dumpsList xs).map Json.jarr
  | .tuple xs => (dumpsList xs).map Json.jarr
  | .dict kvs => (dumpsDict kvs).map Json.jobj
  | .obj _ => Option.none

def dumpsList : List PyVal → Option (List Json)
  | [] => some []
  | x :: xs =>
    match dumps x, dumpsList xs with
    | some j, some js => some (j :: js)
    | _, _ => Option.none

def dumpsDict : List (String × PyVal) → Option (List (String × Json))
  | [] => some []
  | (k, v) :: kvs =>
    match dumps v, dumpsDict kvs with
    | some j, some js => some ((k, j) :: js)
    | _, _ => Option.none
end

mutual
/-- `json.loads` applied to a JSON document: JSON arrays always come
back as Python lists (never tuples); objects come back as dicts in
document order. -/
def loadJson : Json → PyVal
  | .null => .none
  | .jbool b => .bool b
  | .jint n => .int n
  | .jfloat n => .float n
  | .jstr s => .str s
  | .jarr xs => .list (loadJsonList xs)
  | .jobj kvs => .dict (loadJsonDict kvs)

def loadJsonList : List Json → List PyVal
  | [] => []
  | x :: xs => loadJson x :: loadJsonList xs

def loadJsonDict : List (String × Json) → List (String × PyVal)
  | [] => []
  | (k, v) :: kvs => (k, loadJson v) :: loadJsonDict kvs
end

mutual
/-- Python `==` on the modelled values.  Numeric values compare across
int/float/bool (`1 == 1.0 == True` in Python); a tuple never equals a
list; dict comparison is pointwise in iteration order (faithful for
JSON round-trip comparisons, which preserve key order); `obj` values
compare by identity, modelled by their text. -/
def pyEq : PyVal → PyVal → Bool
  | .none, .none => true
  | .bool a, .bool b => a == b
  | .bool a, .int b => (if a then (1 : Int) else 0) == b
  | .bool a, .float b => (if a then (1 : Int) else 0) == b
  | .int a, .bool b => a == (if b then (1 : Int) else 0)
  | .float a, .bool b => a == (if b then (1 : Int) else 0)
  | .int a, .int b => a == b
  | .int a, .float b => a == b
  | .float a, .int b => a == b
  | .float a, .float b => a == b
  | .str a, .str b => a == b
  | .list xs, .list ys => pyEqList xs ys
  | .tuple xs, .tuple ys => pyEqList xs ys
  | .dict xs, .dict ys => pyEqDict xs ys
  | .obj a, .obj b => a == b
  | _, _ => false

def pyEqList : List PyVal → List PyVal → Bool
  | [], [] => true
  | x :: xs, y :: ys => pyEq x y && pyEqList xs ys
  | _, _ => false

def pyEqDict : List (String × PyVal) → List (String × PyVal) → Bool
  | [], [] => true
  | (k, v) :: xs, (k', v') :: ys => k == k' && pyEq v v' && pyEqDict xs ys
  | _, _ => false
end

/-- Join strings with `", "`, as Python does inside `repr` of
containers. -/
def commaJoin : List String → String
  | [] => ""
  | [x] => x
  | x :: xs => x ++ ", " ++ commaJoin xs

mutual
/-- Python `repr` of the modelled values: `repr(10) = "10"`,
`repr(1.0) = "1.0"`, `repr('x') = "'x'"` (strings without special
characters), `repr((10,)) = "(10,)"`, `repr(()) = "()"`,
`repr({'x': 10}) = "\x7b'x': 10\x7d"`. -/
def pyRepr : PyVal → String
  | .none => "None"
  | .bool true => "True"
  | .bool false => "False"
  | .int n => toString n
  | .float n => toString n ++ ".0"
  | .str s => "'" ++ s ++ "'"
  | .list xs => "[" ++ commaJoin (pyReprList xs) ++ "]"
  | .tuple [x] => "(" ++ pyRepr x ++ ",)"
  | .tuple xs => "(" ++ commaJoin (pyReprList xs) ++ ")"
  | .dict kvs => "\x7b" ++ commaJoin (pyReprDict kvs) ++ "\x7d"
  | .obj name => name

def pyReprList : List PyVal → List String
  | [] => []
  | x :: xs => pyRepr x :: pyReprList xs

def pyReprDict : List (String × PyVal) → List String
  | [] => []
  | (k, v) :: kvs => ("'" ++ k ++ "': " ++ pyRepr v) :: pyReprDict kvs
end

/-! ## The Redis backend model

Association-list maps keyed by Redis key names.  A stored string value
is a `Payload`: either the text of a JSON document (everything
`json.dumps` can produce — such text always re-parses) or bytes that
`json.loads` rejects. -/

/-- A string value held by Redis: `jsonOf j` is the serialized text of
the JSON document `j` (as written by `json.dumps`, it always reloads);
`corrupt s` is any byte string rejected by `json.loads`. -/
inductive Payload where
  | jsonOf (j : Json)
  | corrupt (s : String)

/-- `json.loads` applied to a stored payload (`Option.none` models the
`ValueError`/`TypeError` raised on bytes that are not valid JSON). -/
def pyLoads : Payload → Option PyVal
  | .jsonOf j => some (loadJson j)
  | .corrupt _ => Option.none

/-- Look a key up in an association list (first match wins). -/
def alookup {α : Type} : List (String × α) → String → Option α
  | [], _ => Option.none
  | (k', v) :: rest, k => if k' = k then some v else alookup rest k

/-- Remove every binding of a key from an association list. -/
def aerase {α : Type} (l : List (String × α)) (k : String) :
    List (String × α) :=
  l.filter (fun p => !(p.1 == k))

/-- Insert or replace a binding. -/
def aset {α : Type} (l : List (String × α)) (k : String) (v : α) :
    List (String × α) :=
  (k, v) :: aerase l k

/-- The Redis database as the cache uses it: plain string keys (with
`SETEX`), sorted-set keys (member → score), hash keys (field →
counter), and one absolute-expiry table covering all keys (`EXPIRE` /
`SETEX`); a key with no entry there does not expire.  Time is a `Nat`
count of seconds, passed explicitly wherever the Python code reads
`time.time()` or Redis checks TTLs. -/
structure RedisState where
  strings : List (String × Payload)
  zsets : List (String × List (String × Nat))
  hashes : List (String × List (String × Int))
  expireAt : List (String × Nat)

/-- The fresh (empty) database. -/
def RedisState.empty : RedisState := ⟨[], [], [], []⟩

/-- A key is alive when it has no expiry entry or its expiry lies in
the future (Redis drops a key the moment its TTL has elapsed). -/
def keyAlive (now : Nat) (st : RedisState) (k : String) : Bool :=
  match alookup st.expireAt k with
  | some t => now < t
  | Option.none => true

/-- Erase a key from every table (used by `DEL` and by the lazy
deletion Redis applies to an expired key before any command touches
it). -/
def eraseKey (st : RedisState) (k : String) : RedisState :=
  ⟨aerase st.strings k, aerase st.zsets k, aerase st.hashes k,
    aerase st.expireAt k⟩

/-- Drop the key if its TTL has elapsed; Redis performs this lazily
before executing any command on the key. -/
def purgeKey (now : Nat) (st : RedisState) (k : String) : RedisState :=
  if keyAlive now st k then st else eraseKey st k

/-- `GET k`: the stored string, if present and not expired. -/
def rGet (now : Nat) (st : RedisState) (k : String) : Option Payload :=
  if keyAlive now st k then alookup st.strings k else Option.none

/-- `SETEX k ttl v`: store the string and set its expiry to
`now + ttl`. -/
def rSetex (now : Nat) (st : RedisState) (k : String) (ttl : Nat)
    (v : Payload) : RedisState :=
  let st := purgeKey now st k
  ⟨aset st.strings k v, st.zsets, st.hashes, aset st.expireAt k (now + ttl)⟩

/-- `DEL k`: remove the key outright, whatever its type. -/
def rDel (st : RedisState) (k : String) : RedisState :=
  eraseKey st k

/-- `ZADD zk score member`: upsert the member's score in the sorted
set. -/
def rZadd (now : Nat) (st : RedisState) (zk member : String)
    (score : Nat) : RedisState :=
  let st := purgeKey now st zk
  let entry := (alookup st.zsets zk).getD []
  ⟨st.strings, aset st.zsets zk (aset entry member score), st.hashes,
    st.expireAt⟩

/-- `ZREM zk member`: remove the member, a no-op when absent. -/
def rZrem (now : Nat) (st : RedisState) (zk member : String) :
    RedisState :=
  let st := purgeKey now st zk
  match alookup st.zsets zk with
  | Option.none => st
  | some entry =>
    ⟨st.strings, aset st.zsets zk (aerase entry member), st.hashes,
      st.expireAt⟩

/-- `ZCARD zk`: the number of members (0 for an absent or expired
key). -/
def rZcard (now : Nat) (st : RedisState) (zk : String) : Nat :=
  if keyAlive now st zk then ((alookup st.zsets zk).getD []).length
  else 0

/-- Redis sorted-set order: ascending by score, ties broken by the
member string's lexicographic order. -/
def zle (a b : String × Nat) : Bool :=
  if a.2 < b.2 then true
  else if a.2 = b.2 then decide (a.1 ≤ b.1)
  else false

def zinsert (x : String × Nat) : List (String × Nat) →
    List (String × Nat)
  | [] => [x]
  | y :: ys => if zle x y then x :: y :: ys else y :: zinsert x ys

/-- Insertion sort by `zle` (a stable sort, matching Redis's total
order on (score, member) pairs). -/
def zsort : List (String × Nat) → List (String × Nat)
  | [] => []
  | x :: xs => zinsert x (zsort xs)

/-- `ZRANGE zk 0 stop`: members ranked `0 .. stop` inclusive in
ascending (score, member) order.  The Python code only ever calls
`zrange` with start 0 and a non-negative stop. -/
def rZrange (now : Nat) (st : RedisState) (zk : String) (stop : Nat) :
    List String :=
  if keyAlive now st zk then
    (((zsort ((alookup st.zsets zk).getD [])).map Prod.fst).take
      (stop + 1))
  else []

/-- `HINCRBY hk field amount`: add to a hash field, creating the hash
and/or the field (at 0) as needed. -/
def rHincrby (now : Nat) (st : RedisState) (hk field : String)
    (amount : Int) : RedisState :=
  let st := purgeKey now st hk
  let entry := (alookup st.hashes hk).getD []
  let old := (alookup entry field).getD 0
  ⟨st.strings, st.zsets, aset st.hashes hk (aset entry field (old + amount)),
    st.expireAt⟩

/-- Does the (live) key exist in any table? -/
def rExists (now : Nat) (st : RedisState) (k : String) : Bool :=
  keyAlive now st k &&
    ((alookup st.strings k).isSome || (alookup st.zsets k).isSome ||
      (alookup st.hashes k).isSome)

/-- `EXPIRE k ttl`: set the key's expiry to `now + ttl`; a no-op when
the key does not exist. -/
def rExpire (now : Nat) (st : RedisState) (k : String) (ttl : Nat) :
    RedisState :=
  let st := purgeKey now st k
  if rExists now st k then
    ⟨st.strings, st.zsets, st.hashes, aset st.expireAt k (now + ttl)⟩
  else st

/-- `HGET`-style read of one stat counter (for stating theorems): the
current value of a hash field, 0 when the hash or the field is absent
or the key has expired. -/
def statOf (now : Nat) (st : RedisState) (hk field : String) : Int :=
  if keyAlive now st hk then
    ((alookup ((alookup st.hashes hk).getD []) field).getD 0)
  else 0

/-- One step of the eviction pipeline both `_ensure_room`
implementations issue per fetched key: `DEL k` then
`ZREM access k`. -/
def evictStep (now : Nat) (A : String) (s : RedisState) (k : String) :
    RedisState :=
  rZrem now (rDel s k) A k

/-! ## Python string splitting used by the two `__getitem__`s -/

/-- The suffix after the first occurrence of `"#=#"` in a character
list, `Option.none` when the delimiter does not occur
(`s.split('#=#', 1)` has a single element there and the code's `[1]`
would raise `IndexError`; the callers always pass a key containing the
delimiter). -/
def afterFirstDelim : List Char → Option (List Char)
  | [] => Option.none
  | c :: rest =>
    if c = '#' ∧ (rest.take 2 = ['=', '#']) then some (rest.drop 2)
    else afterFirstDelim rest

/-- `key.split('#=#', 1)[1]` as `lru.py` computes it. -/
def splitAfterDelim (s : String) : String :=
  ⟨(afterFirstDelim s.data).getD s.data⟩

/-- `key.rsplit('#', 1)[1]` as `__init__.py` computes it: the
characters after the last `'#'` (the whole string when `'#'` does not
occur, where Python's `[1]` would raise `IndexError`; unreachable since
the joined key always contains `'#'`). -/
def afterLastHash (s : String) : String :=
  ⟨(s.data.reverse.takeWhile (fun c => !(c == '#'))).reverse⟩

/-! ## The `lru.py` variant (`RedisLRUCacheDict` in `redis_lru/lru.py`) -/

namespace LRU

/-- Constructor arguments of `lru.py`'s `RedisLRUCacheDict`
(`unique_key`, `max_size`, `expiration`); the backend node is the
explicit `RedisState`. -/
structure Cfg where
  uniqueKey : String
  maxSize : Nat
  expiration : Nat

/-- `EXPIRATION_STAT_KEY = 30 * 86400`. -/
def EXPIRATION_STAT_KEY : Nat := 30 * 86400

/-- `KEY_DELIMITER = '#=#'`. -/
def KEY_DELIMITER : String := "#=#"

/-- `joint_key`: `'lru-value:{unique_key}#=#{key}'`. -/
def valueKey (c : Cfg) (k : String) : String :=
  "lru-value:" ++ c.uniqueKey ++ KEY_DELIMITER ++ k

/-- `self.access_key = 'lru-access:{unique_key}'` (a sorted set). -/
def accessKey (c : Cfg) : String := "lru-access:" ++ c.uniqueKey

/-- `self.stat_key = 'lru-stat:{unique_key}'` (a hash). -/
def statKey (c : Cfg) : String := "lru-stat:" ++ c.uniqueKey

/-- `self.once_clean_size = int(self.max_size * ONCE_CLEAN_RATIO)` with
`ONCE_CLEAN_RATIO = 0.1`.  For every `max_size` within this
repository's range (the float product `max_size * 0.1` truncates to
`max_size // 10` for all sizes far beyond 1024), this is `maxSize / 10`
in integers. -/
def onceCleanSize (c : Cfg) : Nat := c.maxSize / 10

/-- `_ensure_room`: when `zcard(access) >= max_size`, fetch
`zrange(access, 0, once_clean_size)` (a stop-INCLUSIVE range, hence up
to `once_clean_size + 1` members) and, in one pipeline, `DEL` each
fetched key, `ZREM` it from the access set, then
`HINCRBY stat POP len(keys)` — with no `EXPIRE` of the stat key in this
pipeline.  Returns `true` when there was room. -/
def ensureRoom (c : Cfg) (now : Nat) (st : RedisState) :
    RedisState × Bool :=
  let currentSize := rZcard now st (accessKey c)
  if currentSize < c.maxSize then (st, true)
  else
    let keys := rZrange now st (accessKey c) (onceCleanSize c)
    let st := keys.foldl (evictStep now (accessKey c)) st
    let st := rHincrby now st (statKey c) "POP" keys.length
    (st, false)

/-- `__setitem__` (after `joint_key`): serialize with `json.dumps`; on
failure `HINCRBY stat DUMPS_ERROR 1` + `EXPIRE stat 30d` and return;
otherwise `_ensure_room()` then one pipeline of
`SETEX key expiration value`, `ZADD access time.time() key`,
`EXPIRE access expiration`, `HINCRBY stat SET 1`,
`EXPIRE stat 30d`. -/
def setitem (c : Cfg) (now : Nat) (st : RedisState) (userKey : String)
    (v : PyVal) : RedisState :=
  let key := valueKey c userKey
  match dumps v with
  | Option.none =>
    let st := rHincrby now st (statKey c) "DUMPS_ERROR" 1
    rExpire now st (statKey c) EXPIRATION_STAT_KEY
  | some j =>
    let st := (ensureRoom c now st).1
    let st := rSetex now st key c.expiration (.jsonOf j)
    let st := rZadd now st (accessKey c) key now
    let st := rExpire now st (accessKey c) c.expiration
    let st := rHincrby now st (statKey c) "SET" 1
    rExpire now st (statKey c) EXPIRATION_STAT_KEY

/-- Outcome of `__getitem__`: a value, or the `KeyError` it raises
(with the text it carries). -/
inductive GetResult where
  | ok (v : PyVal)
  | keyError (k : String)

/-- `__getitem__` (after `joint_key`): `GET key`; when absent,
`HINCRBY stat MISS 1` + `EXPIRE stat 30d` and
`raise KeyError(key.split('#=#', 1)[1])`; when present but
`json.loads` fails, `DEL key`, `HINCRBY stat LOADS_ERROR 1`,
`EXPIRE stat 30d` and `raise KeyError(key)` (the full joined key);
when it parses, `ZADD access time.time() key`,
`EXPIRE access expiration`, `HINCRBY stat HIT 1`, `EXPIRE stat 30d`,
return the value. -/
def getitem (c : Cfg) (now : Nat) (st : RedisState)
    (userKey : String) : RedisState × GetResult :=
  let key := valueKey c userKey
  match rGet now st key with
  | Option.none =>
    let st := rHincrby now st (statKey c) "MISS" 1
    let st := rExpire now st (statKey c) EXPIRATION_STAT_KEY
    (st, .keyError (splitAfterDelim key))
  | some payload =>
    match pyLoads payload with
    | Option.none =>
      let st := rDel st key
      let st := rHincrby now st (statKey c) "LOADS_ERROR" 1
      let st := rExpire now st (statKey c) EXPIRATION_STAT_KEY
      (st, .keyError key)
    | some v =>
      let st := rZadd now st (accessKey c) key now
      let st := rExpire now st (accessKey c) c.expiration
      let st := rHincrby now st (statKey c) "HIT" 1
      let st := rExpire now st (statKey c) EXPIRATION_STAT_KEY
      (st, .ok v)

/-- `__delitem__` (after `joint_key`): one pipeline of `DEL key`,
`ZREM access key`, `EXPIRE access expiration`, `HINCRBY stat DEL 1`,
`EXPIRE stat 30d`. -/
def delitem (c : Cfg) (now : Nat) (st : RedisState)
    (userKey : String) : RedisState :=
  let key := valueKey c userKey
  let st := rDel st key
  let st := rZrem now st (accessKey c) key
  let st := rExpire now st (accessKey c) c.expiration
  let st := rHincrby now st (statKey c) "DEL" 1
  rExpire now st (statKey c) EXPIRATION_STAT_KEY

/-- The method names redis-py's `StrictRedis` client actually defines
for the commands this repository needs (the backend collaborator's
interface: `exists`, not `exist`, is the existence check). -/
def redisClientMethods : List String :=
  ["get", "set", "setex", "delete", "exists", "expire", "ttl",
   "zadd", "zrem", "zrange", "zcard", "zscore",
   "hgetall", "hincrby", "hget", "hset", "pipeline", "execute"]

/-- Outcome of a Python attribute access + call on the client. -/
inductive PyOutcome (α : Type) where
  | ok (a : α)
  | attributeError (method : String)

/-- `__contains__` (after `joint_key`):
`return bool(self.node.exist(key))`.  Attribute lookup of `exist` on
the redis-py client resolves only if the client defines such a method;
otherwise Python raises `AttributeError`. -/
def contains (c : Cfg) (now : Nat) (st : RedisState)
    (userKey : String) : PyOutcome Bool :=
  let key := valueKey c userKey
  if "exist" ∈ redisClientMethods then .ok (rExists now st key)
  else .attributeError "exist"

/-- The `redis_lru_cache` decorator's `inner` (in `lru.py`):
`key = repr((args, kwargs))`; `return lru_cache[key]`, and on
`KeyError` compute `value = func(*args, **kwargs)`, store
`lru_cache[key] = value` and return it. -/
def callKey (args : List PyVal) (kwargs : List (String × PyVal)) :
    String :=
  pyRepr (.tuple [.tuple args, .dict kwargs])

def inner (f : List PyVal → List (String × PyVal) → PyVal) (c : Cfg)
    (now : Nat) (st : RedisState) (args : List PyVal)
    (kwargs : List (String × PyVal)) : RedisState × PyVal :=
  let key := callKey args kwargs
  match getitem c now st key with
  | (st, .ok v) => (st, v)
  | (st, .keyError _) =>
    let v := f args kwargs
    (setitem c now st key v, v)

end LRU

/-! ## The `__init__.py` variant (`RedisLRUCacheDict` in
`redis_lru/__init__.py`) -/

namespace Init

/-- Constructor arguments of `__init__.py`'s `RedisLRUCacheDict`,
including the `hidden_exception` policy flag (default `true`). -/
structure Cfg where
  uniqueKey : String
  maxSize : Nat
  expiration : Nat
  hiddenException : Bool

/-- `STAT_KEY_EXPIRATION = 30 * 24 * 60 * 60`. -/
def STAT_KEY_EXPIRATION : Nat := 30 * 24 * 60 * 60

/-- `joint_key`: `'lru-value:{unique_key}#{key}'` (single `'#'`
delimiter). -/
def valueKey (c : Cfg) (k : String) : String :=
  "lru-value:" ++ c.uniqueKey ++ "#" ++ k

/-- `self.access_key = 'lru-access:{unique_key}'`. -/
def accessKey (c : Cfg) : String := "lru-access:" ++ c.uniqueKey

/-- `self.stat_key = 'lru-stat:{unique_key}'`. -/
def statKey (c : Cfg) : String := "lru-stat:" ++ c.uniqueKey

/-- `self.batch_size = (self.max_size // 10) or 1`. -/
def batchSize (c : Cfg) : Nat :=
  if c.maxSize / 10 = 0 then 1 else c.maxSize / 10

/-- `_ensure_room`: when `zcard(access) >= max_size`, fetch
`zrange(access, 0, batch_size)` (stop-inclusive: up to
`batch_size + 1` members) and pipeline `DEL` + `ZREM` for each; this
variant increments no stat counter on eviction. -/
def ensureRoom (c : Cfg) (now : Nat) (st : RedisState) :
    RedisState × Bool :=
  let currentSize := rZcard now st (accessKey c)
  if currentSize < c.maxSize then (st, true)
  else
    let keys := rZrange now st (accessKey c) (batchSize c)
    let st := keys.foldl (evictStep now (accessKey c)) st
    (st, false)

/-- What `__setitem__` raises, if anything: this variant re-raises a
serialization `TypeError` as `LRUSerializeError` when
`hidden_exception` is off. -/
inductive SetOutcome where
  | done
  | lruSerializeError

/-- `__setitem__` (after `joint_key`): `json.dumps`; on `TypeError`,
pipeline `HINCRBY stat serialize_error 1` + `EXPIRE stat 30d`, then
raise `LRUSerializeError` when `hidden_exception` is off, else return
`None`; otherwise `_ensure_room()` then one pipeline of
`SETEX key expiration value`, `ZADD access time.time() key`,
`EXPIRE access expiration`, `HINCRBY stat set 1`,
`EXPIRE stat 30d`. -/
def setitem (c : Cfg) (now : Nat) (st : RedisState) (userKey : String)
    (v : PyVal) : RedisState × SetOutcome :=
  let key := valueKey c userKey
  match dumps v with
  | Option.none =>
    let st := rHincrby now st (statKey c) "serialize_error" 1
    let st := rExpire now st (statKey c) STAT_KEY_EXPIRATION
    if c.hiddenException then (st, .done) else (st, .lruSerializeError)
  | some j =>
    let st := (ensureRoom c now st).1
    let st := rSetex now st key c.expiration (.jsonOf j)
    let st := rZadd now st (accessKey c) key now
    let st := rExpire now st (accessKey c) c.expiration
    let st := rHincrby now st (statKey c) "set" 1
    (rExpire now st (statKey c) STAT_KEY_EXPIRATION, .done)

/-- Outcome of this variant's `__getitem__`: a value, a `KeyError`, or
(strict mode only) an `LRUSerializeError`. -/
inductive GetResult where
  | ok (v : PyVal)
  | keyError (k : String)
  | lruSerializeError

/-- `__getitem__` (after `joint_key`): `GET key`; when absent,
`key = key.rsplit('#', 1)[1]`, pipeline `HINCRBY stat miss 1` +
`EXPIRE stat 30d`, `raise KeyError(key)`; when present, FIRST pipeline
`ZADD access time.time() key`, `EXPIRE access expiration`,
`HINCRBY stat hit 1`, `EXPIRE stat 30d`, and only then `json.loads`:
on failure raise `LRUSerializeError` when `hidden_exception` is off,
else `KeyError(key)` with the full joined key — the corrupt entry is
neither deleted nor counted in any error counter. -/
def getitem (c : Cfg) (now : Nat) (st : RedisState)
    (userKey : String) : RedisState × GetResult :=
  let key := valueKey c userKey
  match rGet now st key with
  | Option.none =>
    let shortKey := afterLastHash key
    let st := rHincrby now st (statKey c) "miss" 1
    let st := rExpire now st (statKey c) STAT_KEY_EXPIRATION
    (st, .keyError shortKey)
  | some payload =>
    let st := rZadd now st (accessKey c) key now
    let st := rExpire now st (accessKey c) c.expiration
    let st := rHincrby now st (statKey c) "hit" 1
    let st := rExpire now st (statKey c) STAT_KEY_EXPIRATION
    match pyLoads payload with
    | Option.none =>
      if c.hiddenException then (st, .keyError key)
      else (st, .lruSerializeError)
    | some v => (st, .ok v)

end Init

/-! ## Association-list lemmas -/

theorem alookup_aerase {α : Type} (l : List (String × α)) (k x : String) :
    alookup (aerase l k) x = if k = x then Option.none else alookup l x := by
  induction l with
  | nil => simp [aerase, alookup]
  | cons p t ih =>
    unfold aerase at ih ⊢
    by_cases h1 : p.1 = k
    · rw [List.filter_cons_of_neg (by simp [h1]), ih]
      by_cases h2 : k = x
      · simp [h2]
      · have h3 : p.1 ≠ x := by rw [h1]; exact h2
        simp [alookup, h2, h3]
    · rw [List.filter_cons_of_pos (by simp [h1])]
      by_cases h3 : p.1 = x
      · have h2 : k ≠ x := fun hkx => h1 (h3.trans hkx.symm)
        simp [alookup, h3, h2]
      · show (if p.1 = x then some p.2 else alookup (List.filter _ t) x) = _
        rw [if_neg h3, ih]
        by_cases h2 : k = x <;> simp [h2, alookup, h3]

theorem alookup_aset_self {α : Type} (l : List (String × α)) (k : String)
    (v : α) : alookup (aset l k v) k = some v := by
  simp [aset, alookup]

theorem alookup_aset_ne {α : Type} (l : List (String × α)) (k x : String)
    (v : α) (h : k ≠ x) : alookup (aset l k v) x = alookup l x := by
  simp [aset, alookup, h, alookup_aerase]

/-! ## Frame lemmas for the Redis commands -/

theorem eraseKey_lookup (st : RedisState) (k x : String) (h : x ≠ k) :
    alookup (eraseKey st k).strings x = alookup st.strings x ∧
    alookup (eraseKey st k).zsets x = alookup st.zsets x ∧
    alookup (eraseKey st k).hashes x = alookup st.hashes x ∧
    alookup (eraseKey st k).expireAt x = alookup st.expireAt x := by
  unfold eraseKey
  refine ⟨?_, ?_, ?_, ?_⟩ <;> rw [alookup_aerase, if_neg (Ne.symm h)]

theorem purgeKey_lookup (now : Nat) (st : RedisState) (k x : String)
    (h : x ≠ k) :
    alookup (purgeKey now st k).strings x = alookup st.strings x ∧
    alookup (purgeKey now st k).zsets x = alookup st.zsets x ∧
    alookup (purgeKey now st k).hashes x = alookup st.hashes x ∧
    alookup (purgeKey now st k).expireAt x = alookup st.expireAt x := by
  unfold purgeKey
  split
  · exact ⟨rfl, rfl, rfl, rfl⟩
  · exact eraseKey_lookup st k x h

theorem purgeKey_id (now : Nat) (st : RedisState) (k : String)
    (h : keyAlive now st k = true) : purgeKey now st k = st := by
  simp [purgeKey, h]

theorem keyAlive_ext (now : Nat) (st st' : RedisState) (x : String)
    (h : alookup st'.expireAt x = alookup st.expireAt x) :
    keyAlive now st' x = keyAlive now st x := by
  unfold keyAlive
  rw [h]

theorem keyAlive_purge_self (now : Nat) (st : RedisState) (k : String) :
    keyAlive now (purgeKey now st k) k = true := by
  unfold purgeKey
  split
  · assumption
  · unfold keyAlive eraseKey
    rw [alookup_aerase]
    simp

theorem rDel_lookup (st : RedisState) (k x : String) (h : x ≠ k) :
    alookup (rDel st k).strings x = alookup st.strings x ∧
    alookup (rDel st k).zsets x = alookup st.zsets x ∧
    alookup (rDel st k).hashes x = alookup st.hashes x ∧
    alookup (rDel st k).expireAt x = alookup st.expireAt x :=
  eraseKey_lookup st k x h

theorem rDel_self (st : RedisState) (k : String) :
    alookup (rDel st k).strings k = Option.none ∧
    alookup (rDel st k).zsets k = Option.none ∧
    alookup (rDel st k).hashes k = Option.none ∧
    alookup (rDel st k).expireAt k = Option.none := by
  unfold rDel eraseKey
  refine ⟨?_, ?_, ?_, ?_⟩ <;> rw [alookup_aerase] <;> simp

theorem rSetex_lookup (now : Nat) (st : RedisState) (k : String)
    (ttl : Nat) (v : Payload) (x : String) (h : x ≠ k) :
    alookup (rSetex now st k ttl v).strings x = alookup st.strings x ∧
    alookup (rSetex now st k ttl v).zsets x = alookup st.zsets x ∧
    alookup (rSetex now st k ttl v).hashes x = alookup st.hashes x ∧
    alookup (rSetex now st k ttl v).expireAt x = alookup st.expireAt x := by
  have hp := purgeKey_lookup now st k x h
  unfold rSetex
  dsimp only
  refine ⟨?_, ?_, ?_, ?_⟩ <;>
    (try simp only [alookup_aset_ne _ _ _ _ (Ne.symm h)]) <;> tauto

theorem rSetex_self (now : Nat) (st : RedisState) (k : String)
    (ttl : Nat) (v : Payload) :
    alookup (rSetex now st k ttl v).strings k = some v ∧
    alookup (rSetex now st k ttl v).expireAt k = some (now + ttl) := by
  unfold rSetex
  dsimp only
  exact ⟨alookup_aset_self _ _ _, alookup_aset_self _ _ _⟩

theorem rZadd_lookup (now : Nat) (st : RedisState) (zk member : String)
    (score : Nat) (x : String) (h : x ≠ zk) :
    alookup (rZadd now st zk member score).strings x = alookup st.strings x ∧
    alookup (rZadd now st zk member score).zsets x = alookup st.zsets x ∧
    alookup (rZadd now st zk member score).hashes x = alookup st.hashes x ∧
    alookup (rZadd now st zk member score).expireAt x =
      alookup st.expireAt x := by
  have hp := purgeKey_lookup now st zk x h
  unfold rZadd
  dsimp only
  refine ⟨?_, ?_, ?_, ?_⟩ <;>
    (try simp only [alookup_aset_ne _ _ _ _ (Ne.symm h)]) <;> tauto

theorem rZrem_lookup (now : Nat) (st : RedisState) (zk member : String)
    (x : String) (h : x ≠ zk) :
    alookup (rZrem now st zk member).strings x = alookup st.strings x ∧
    alookup (rZrem now st zk member).zsets x = alookup st.zsets x ∧
    alookup (rZrem now st zk member).hashes x = alookup st.hashes x ∧
    alookup (rZrem now st zk member).expireAt x = alookup st.expireAt x := by
  have hp := purgeKey_lookup now st zk x h
  unfold rZrem
  dsimp only
  split
  · tauto
  · refine ⟨?_, ?_, ?_, ?_⟩ <;>
      (try simp only [alookup_aset_ne _ _ _ _ (Ne.symm h)]) <;> tauto

theorem rHincrby_lookup (now : Nat) (st : RedisState) (hk field : String)
    (amount : Int) (x : String) (h : x ≠ hk) :
    alookup (rHincrby now st hk field amount).strings x =
      alookup st.strings x ∧
    alookup (rHincrby now st hk field amount).zsets x = alookup st.zsets x ∧
    alookup (rHincrby now st hk field amount).hashes x =
      alookup st.hashes x ∧
    alookup (rHincrby now st hk field amount).expireAt x =
      alookup st.expireAt x := by
  have hp := purgeKey_lookup now st hk x h
  unfold rHincrby
  dsimp only
  refine ⟨?_, ?_, ?_, ?_⟩ <;>
    (try simp only [alookup_aset_ne _ _ _ _ (Ne.symm h)]) <;> tauto

theorem rExpire_lookup (now : Nat) (st : RedisState) (k : String)
    (ttl : Nat) (x : String) (h : x ≠ k) :
    alookup (rExpire now st k ttl).strings x = alookup st.strings x ∧
    alookup (rExpire now st k ttl).zsets x = alookup st.zsets x ∧
    alookup (rExpire now st k ttl).hashes x = alookup st.hashes x ∧
    alookup (rExpire now st k ttl).expireAt x = alookup st.expireAt x := by
  have hp := purgeKey_lookup now st k x h
  unfold rExpire
  dsimp only
  split
  · refine ⟨?_, ?_, ?_, ?_⟩ <;>
      (try simp only [alookup_aset_ne _ _ _ _ (Ne.symm h)]) <;> tauto
  · tauto

theorem rExpire_hashes (now : Nat) (st : RedisState) (k : String)
    (ttl : Nat) :
    (rExpire now st k ttl).hashes = (purgeKey now st k).hashes := by
  unfold rExpire
  dsimp only
  split <;> rfl

theorem rHincrby_keyAlive_self (now : Nat) (st : RedisState)
    (hk field : String) (amount : Int) :
    keyAlive now (rHincrby now st hk field amount) hk = true := by
  have h := keyAlive_purge_self now st hk
  unfold rHincrby
  dsimp only
  unfold keyAlive at h ⊢
  exact h

theorem rHincrby_hashes_isSome (now : Nat) (st : RedisState)
    (hk field : String) (amount : Int) :
    (alookup (rHincrby now st hk field amount).hashes hk).isSome = true := by
  unfold rHincrby
  dsimp only
  rw [alookup_aset_self]
  rfl

theorem rExists_of_hashes (now : Nat) (st : RedisState) (k : String)
    (h1 : keyAlive now st k = true)
    (h2 : (alookup st.hashes k).isSome = true) :
    rExists now st k = true := by
  unfold rExists
  rw [h1, h2]
  simp

theorem rExpire_expireAt_self (now : Nat) (st : RedisState) (k : String)
    (ttl : Nat) (h1 : keyAlive now st k = true)
    (h2 : rExists now st k = true) :
    alookup (rExpire now st k ttl).expireAt k = some (now + ttl) := by
  unfold rExpire
  dsimp only
  rw [purgeKey_id now st k h1, h2]
  simp [alookup_aset_self]

theorem statOf_rHincrby_self (now : Nat) (st : RedisState) (S f : String)
    (a : Int) :
    statOf now (rHincrby now st S f a) S f = statOf now st S f + a := by
  have hAlive := rHincrby_keyAlive_self now st S f a
  unfold statOf
  rw [hAlive]
  simp only [if_true]
  unfold rHincrby
  dsimp only
  rw [alookup_aset_self]
  simp only [Option.getD_some]
  rw [alookup_aset_self]
  simp only [Option.getD_some]
  by_cases h : keyAlive now st S = true
  · rw [purgeKey_id now st S h, if_pos h]
  · rw [if_neg h]
    unfold purgeKey
    rw [if_neg h]
    unfold eraseKey
    dsimp only
    rw [alookup_aerase]
    simp [alookup]

theorem statOf_rHincrby_other (now : Nat) (st : RedisState)
    (S f g : String) (a : Int) (hg : g ≠ f) :
    statOf now (rHincrby now st S f a) S g = statOf now st S g := by
  have hAlive := rHincrby_keyAlive_self now st S f a
  unfold statOf
  rw [hAlive]
  simp only [if_true]
  unfold rHincrby
  dsimp only
  rw [alookup_aset_self]
  simp only [Option.getD_some]
  rw [alookup_aset_ne _ _ _ _ (Ne.symm hg)]
  by_cases h : keyAlive now st S = true
  · rw [purgeKey_id now st S h, if_pos h]
  · rw [if_neg h]
    unfold purgeKey
    rw [if_neg h]
    unfold eraseKey
    dsimp only
    rw [alookup_aerase]
    simp [alookup]

theorem statOf_rExpire_self (now : Nat) (st : RedisState) (S : String)
    (ttl : Nat) (f : String) (hT : 0 < ttl)
    (h1 : keyAlive now st S = true) (h2 : rExists now st S = true) :
    statOf now (rExpire now st S ttl) S f = statOf now st S f := by
  have he := rExpire_expireAt_self now st S ttl h1 h2
  have hAlive2 : keyAlive now (rExpire now st S ttl) S = true := by
    unfold keyAlive
    rw [he]
    simp [Nat.lt_add_of_pos_right hT]
  unfold statOf
  rw [hAlive2, h1]
  simp only [if_true]
  rw [rExpire_hashes, purgeKey_id now st S h1]

/-- Every stat-mutating pipeline in the code other than `_ensure_room`
ends `HINCRBY stat f a; EXPIRE stat T`: afterwards, counter `g` reads
as before plus `a` when `g = f`. -/
theorem tail_statOf (now : Nat) (st : RedisState) (S f g : String)
    (a : Int) (T : Nat) (hT : 0 < T) :
    statOf now (rExpire now (rHincrby now st S f a) S T) S g =
      statOf now st S g + (if g = f then a else 0) := by
  rw [statOf_rExpire_self now _ S T g hT
    (rHincrby_keyAlive_self now st S f a)
    (rExists_of_hashes now _ S (rHincrby_keyAlive_self now st S f a)
      (rHincrby_hashes_isSome now st S f a))]
  by_cases hg : g = f
  · rw [if_pos hg, hg, statOf_rHincrby_self]
  · rw [if_neg hg, statOf_rHincrby_other now st S f g a hg]
    simp

/-- The stat expiry after the same tail. -/
theorem tail_expireAt (now : Nat) (st : RedisState) (S f : String)
    (a : Int) (T : Nat) :
    alookup (rExpire now (rHincrby now st S f a) S T).expireAt S =
      some (now + T) :=
  rExpire_expireAt_self now _ S T (rHincrby_keyAlive_self now st S f a)
    (rExists_of_hashes now _ S (rHincrby_keyAlive_self now st S f a)
      (rHincrby_hashes_isSome now st S f a))

/-- The `HINCRBY stat; EXPIRE stat` tail leaves every other key's
tables untouched. -/
theorem tail_lookup (now : Nat) (st : RedisState) (S f : String)
    (a : Int) (T : Nat) (x : String) (h : x ≠ S) :
    alookup (rExpire now (rHincrby now st S f a) S T).strings x =
      alookup st.strings x ∧
    alookup (rExpire now (rHincrby now st S f a) S T).zsets x =
      alookup st.zsets x ∧
    alookup (rExpire now (rHincrby now st S f a) S T).hashes x =
      alookup st.hashes x ∧
    alookup (rExpire now (rHincrby now st S f a) S T).expireAt x =
      alookup st.expireAt x := by
  have h1 := rHincrby_lookup now st S f a x h
  have h2 := rExpire_lookup now (rHincrby now st S f a) S T x h
  exact ⟨h2.1.trans h1.1, h2.2.1.trans h1.2.1, h2.2.2.1.trans h1.2.2.1,
    h2.2.2.2.trans h1.2.2.2⟩

/-! ## Sorted-set order lemmas -/

/-- `zle` as a proposition. -/
def zrel (a b : String × Nat) : Prop := zle a b = true

theorem zle_iff (a b : String × Nat) :
    zle a b = true ↔ (a.2 < b.2 ∨ (a.2 = b.2 ∧ a.1 ≤ b.1)) := by
  unfold zle
  by_cases h1 : a.2 < b.2 <;> by_cases h2 : a.2 = b.2 <;>
    simp [h1, h2]

theorem zle_total (a b : String × Nat) (h : ¬ zle a b = true) :
    zle b a = true := by
  rw [zle_iff] at h ⊢
  push_neg at h
  obtain ⟨h1, h2⟩ := h
  by_cases hlt : b.2 < a.2
  · exact Or.inl hlt
  · have he : b.2 = a.2 := by omega
    exact Or.inr ⟨he, le_of_lt (h2 he.symm)⟩

theorem zle_trans_lemma (a b c : String × Nat) (h1 : zle a b = true)
    (h2 : zle b c = true) : zle a c = true := by
  rw [zle_iff] at h1 h2 ⊢
  rcases h1 with h1 | ⟨h1e, h1s⟩ <;> rcases h2 with h2 | ⟨h2e, h2s⟩
  · exact Or.inl (h1.trans h2)
  · exact Or.inl (h2e ▸ h1)
  · exact Or.inl (h1e ▸ h2)
  · exact Or.inr ⟨h1e.trans h2e, h1s.trans h2s⟩

theorem mem_zinsert (x y : String × Nat) (l : List (String × Nat)) :
    y ∈ zinsert x l ↔ y = x ∨ y ∈ l := by
  induction l with
  | nil => simp [zinsert]
  | cons z t ih =>
    unfold zinsert
    split
    · simp
    · simp [ih]
      tauto

theorem zinsert_length (x : String × Nat) (l : List (String × Nat)) :
    (zinsert x l).length = l.length + 1 := by
  induction l with
  | nil => rfl
  | cons z t ih =>
    unfold zinsert
    split
    · rfl
    · simp [ih]

theorem zsort_length (l : List (String × Nat)) :
    (zsort l).length = l.length := by
  induction l with
  | nil => rfl
  | cons x t ih =>
    unfold zsort
    rw [zinsert_length, ih]
    rfl

theorem pairwise_zinsert (x : String × Nat) (l : List (String × Nat))
    (h : l.Pairwise zrel) : (zinsert x l).Pairwise zrel := by
  induction l with
  | nil => simp [zinsert, zrel]
  | cons y t ih =>
    rw [List.pairwise_cons] at h
    unfold zinsert
    split
    · rename_i hxy
      rw [List.pairwise_cons]
      refine ⟨?_, List.pairwise_cons.mpr h⟩
      intro z hz
      rcases List.mem_cons.mp hz with hzy | hzt
      · exact hzy ▸ hxy
      · exact zle_trans_lemma x y z hxy (h.1 z hzt)
    · rename_i hxy
      rw [List.pairwise_cons]
      refine ⟨?_, ih h.2⟩
      intro z hz
      rcases (mem_zinsert x z t).mp hz with hzx | hzt
      · exact hzx ▸ zle_total x y hxy
      · exact h.1 z hzt

theorem pairwise_zsort (l : List (String × Nat)) :
    (zsort l).Pairwise zrel := by
  induction l with
  | nil => simp [zsort]
  | cons x t ih => exact pairwise_zinsert x (zsort t) ih

/-- `ZRANGE zk 0 stop` returns `min (stop + 1) (ZCARD zk)` members. -/
theorem rZrange_length (now : Nat) (st : RedisState) (zk : String)
    (stop : Nat) :
    (rZrange now st zk stop).length = min (stop + 1) (rZcard now st zk) := by
  unfold rZrange rZcard
  by_cases h : keyAlive now st zk = true
  · simp [h, List.length_take, zsort_length]
  · simp [h]

/-! ## Lemmas about the eviction fold -/

theorem rZrem_strings (now : Nat) (st : RedisState) (zk member : String) :
    (rZrem now st zk member).strings = (purgeKey now st zk).strings := by
  unfold rZrem
  dsimp only
  split <;> rfl

theorem purgeKey_strings_none (now : Nat) (st : RedisState) (k x : String)
    (h : alookup st.strings x = Option.none) :
    alookup (purgeKey now st k).strings x = Option.none := by
  unfold purgeKey
  split
  · exact h
  · unfold eraseKey
    dsimp only
    rw [alookup_aerase]
    by_cases e : k = x <;> simp [e, h]

theorem evictStep_strings_mono (now : Nat) (A : String) (s : RedisState)
    (k x : String) (h : alookup s.strings x = Option.none) :
    alookup (evictStep now A s k).strings x = Option.none := by
  unfold evictStep
  rw [rZrem_strings]
  exact purgeKey_strings_none now _ A x (by
    unfold rDel eraseKey
    dsimp only
    rw [alookup_aerase]
    by_cases e : k = x <;> simp [e, h])

theorem evictStep_strings_self (now : Nat) (A : String) (s : RedisState)
    (k : String) :
    alookup (evictStep now A s k).strings k = Option.none := by
  unfold evictStep
  rw [rZrem_strings]
  exact purgeKey_strings_none now _ A k (rDel_self s k).1

theorem fold_strings_mono (now : Nat) (A : String) (ks : List String)
    (st : RedisState) (x : String)
    (h : alookup st.strings x = Option.none) :
    alookup (ks.foldl (evictStep now A) st).strings x = Option.none := by
  induction ks generalizing st with
  | nil => exact h
  | cons k t ih =>
    exact ih (evictStep now A st k) (evictStep_strings_mono now A st k x h)

theorem fold_strings_none (now : Nat) (A : String) (ks : List String)
    (st : RedisState) (x : String) (hmem : x ∈ ks) :
    alookup (ks.foldl (evictStep now A) st).strings x = Option.none := by
  induction ks generalizing st with
  | nil => cases hmem
  | cons k t ih =>
    rcases List.mem_cons.mp hmem with hx | hx
    · exact fold_strings_mono now A t _ x
        (hx ▸ evictStep_strings_self now A st k)
    · exact ih (evictStep now A st k) hx

/-- The member list of the sorted set `A` in a state. -/
def zmem (st : RedisState) (A x : String) : Option Nat :=
  alookup ((alookup st.zsets A).getD []) x

theorem purgeKey_zmem_mono (now : Nat) (st : RedisState) (A x : String)
    (h : zmem st A x = Option.none) :
    zmem (purgeKey now st A) A x = Option.none := by
  unfold purgeKey
  split
  · exact h
  · unfold zmem eraseKey
    dsimp only
    rw [alookup_aerase]
    simp [alookup]

theorem rZrem_zmem_self (now : Nat) (st : RedisState) (A m : String) :
    zmem (rZrem now st A m) A m = Option.none := by
  unfold rZrem
  dsimp only
  split
  · rename_i heq
    unfold zmem
    rw [heq]
    simp [alookup]
  · rename_i entry heq
    unfold zmem
    dsimp only
    rw [alookup_aset_self]
    simp only [Option.getD_some]
    rw [alookup_aerase]
    simp

theorem rZrem_zmem_mono (now : Nat) (st : RedisState) (A m x : String)
    (h : zmem st A x = Option.none) :
    zmem (rZrem now st A m) A x = Option.none := by
  have hp := purgeKey_zmem_mono now st A x h
  unfold rZrem
  dsimp only
  split
  · rename_i heq
    unfold zmem
    rw [heq]
    simp [alookup]
  · rename_i entry heq
    unfold zmem
    dsimp only
    rw [alookup_aset_self]
    simp only [Option.getD_some]
    rw [alookup_aerase]
    unfold zmem at hp
    rw [heq] at hp
    simp only [Option.getD_some] at hp
    by_cases e : m = x <;> simp [e, hp]

theorem evictStep_zmem_self (now : Nat) (A : String) (s : RedisState)
    (k : String) :
    zmem (evictStep now A s k) A k = Option.none :=
  rZrem_zmem_self now (rDel s k) A k

theorem evictStep_zmem_mono (now : Nat) (A : String) (s : RedisState)
    (k x : String) (hk : k ≠ A) (h : zmem s A x = Option.none) :
    zmem (evictStep now A s k) A x = Option.none := by
  unfold evictStep
  apply rZrem_zmem_mono
  unfold zmem
  rw [(rDel_lookup s k A (Ne.symm hk)).2.1]
  exact h

theorem fold_zmem_mono (now : Nat) (A : String) (ks : List String)
    (st : RedisState) (x : String) (hA : ∀ k ∈ ks, k ≠ A)
    (h : zmem st A x = Option.none) :
    zmem (ks.foldl (evictStep now A) st) A x = Option.none := by
  induction ks generalizing st with
  | nil => exact h
  | cons k t ih =>
    exact ih _ (fun k' hk' => hA k' (List.mem_cons_of_mem k hk'))
      (evictStep_zmem_mono now A st k x (hA k (List.mem_cons_self k t)) h)

theorem fold_zmem_none (now : Nat) (A : String) (ks : List String)
    (st : RedisState) (x : String) (hmem : x ∈ ks)
    (hA : ∀ k ∈ ks, k ≠ A) :
    zmem (ks.foldl (evictStep now A) st) A x = Option.none := by
  induction ks generalizing st with
  | nil => cases hmem
  | cons k t ih =>
    rcases List.mem_cons.mp hmem with hx | hx
    · exact fold_zmem_mono now A t _ x
        (fun k' hk' => hA k' (List.mem_cons_of_mem k hk'))
        (hx ▸ evictStep_zmem_self now A st k)
    · exact ih _ hx (fun k' hk' => hA k' (List.mem_cons_of_mem k hk'))

theorem evictStep_lookup (now : Nat) (A : String) (s : RedisState)
    (k x : String) (hxk : x ≠ k) (hxA : x ≠ A) :
    alookup (evictStep now A s k).strings x = alookup s.strings x ∧
    alookup (evictStep now A s k).zsets x = alookup s.zsets x ∧
    alookup (evictStep now A s k).hashes x = alookup s.hashes x ∧
    alookup (evictStep now A s k).expireAt x = alookup s.expireAt x := by
  have h1 := rDel_lookup s k x hxk
  have h2 := rZrem_lookup now (rDel s k) A k x hxA
  exact ⟨h2.1.trans h1.1, h2.2.1.trans h1.2.1, h2.2.2.1.trans h1.2.2.1,
    h2.2.2.2.trans h1.2.2.2⟩

theorem fold_lookup (now : Nat) (A : String) (ks : List String)
    (st : RedisState) (x : String) (hxk : ∀ k ∈ ks, x ≠ k)
    (hxA : x ≠ A) :
    alookup (ks.foldl (evictStep now A) st).strings x =
      alookup st.strings x ∧
    alookup (ks.foldl (evictStep now A) st).zsets x = alookup st.zsets x ∧
    alookup (ks.foldl (evictStep now A) st).hashes x =
      alookup st.hashes x ∧
    alookup (ks.foldl (evictStep now A) st).expireAt x =
      alookup st.expireAt x := by
  induction ks generalizing st with
  | nil => exact ⟨rfl, rfl, rfl, rfl⟩
  | cons k t ih =>
    have hstep := evictStep_lookup now A st k x
      (hxk k (List.mem_cons_self k t)) hxA
    have hrest := ih (evictStep now A st k)
      (fun k' hk' => hxk k' (List.mem_cons_of_mem k hk'))
    exact ⟨hrest.1.trans hstep.1, hrest.2.1.trans hstep.2.1,
      hrest.2.2.1.trans hstep.2.2.1, hrest.2.2.2.trans hstep.2.2.2⟩

/-! ## Distinctness of the three backend key names -/

theorem lruValueKey_length (c : LRU.Cfg) (k : String) :
    (LRU.valueKey c k).length = 13 + c.uniqueKey.length + k.length := by
  unfold LRU.valueKey LRU.KEY_DELIMITER
  rw [String.length_append, String.length_append, String.length_append]
  have h1 : ("lru-value:" : String).length = 10 := rfl
  have h2 : ("#=#" : String).length = 3 := rfl
  omega

theorem lruAccessKey_length (c : LRU.Cfg) :
    (LRU.accessKey c).length = 11 + c.uniqueKey.length := by
  unfold LRU.accessKey
  rw [String.length_append]
  have h1 : ("lru-access:" : String).length = 11 := rfl
  omega

theorem lruStatKey_length (c : LRU.Cfg) :
    (LRU.statKey c).length = 9 + c.uniqueKey.length := by
  unfold LRU.statKey
  rw [String.length_append]
  have h1 : ("lru-stat:" : String).length = 9 := rfl
  omega

theorem lruValueKey_ne_accessKey (c : LRU.Cfg) (k : String) :
    LRU.valueKey c k ≠ LRU.accessKey c := by
  intro h
  have hl := congrArg String.length h
  rw [lruValueKey_length, lruAccessKey_length] at hl
  omega

theorem lruValueKey_ne_statKey (c : LRU.Cfg) (k : String) :
    LRU.valueKey c k ≠ LRU.statKey c := by
  intro h
  have hl := congrArg String.length h
  rw [lruValueKey_length, lruStatKey_length] at hl
  omega

theorem lruAccessKey_ne_statKey (c : LRU.Cfg) :
    LRU.accessKey c ≠ LRU.statKey c := by
  intro h
  have hl := congrArg String.length h
  rw [lruAccessKey_length, lruStatKey_length] at hl
  omega

theorem lruValueKey_ne_userKey (c : LRU.Cfg) (k : String) :
    LRU.valueKey c k ≠ k := by
  intro h
  have hl := congrArg String.length h
  rw [lruValueKey_length] at hl
  omega

theorem initValueKey_length (c : Init.Cfg) (k : String) :
    (Init.valueKey c k).length = 11 + c.uniqueKey.length + k.length := by
  unfold Init.valueKey
  rw [String.length_append, String.length_append, String.length_append]
  have h1 : ("lru-value:" : String).length = 10 := rfl
  have h2 : ("#" : String).length = 1 := rfl
  omega

theorem initAccessKey_length (c : Init.Cfg) :
    (Init.accessKey c).length = 11 + c.uniqueKey.length := by
  unfold Init.accessKey
  rw [String.length_append]
  have h1 : ("lru-access:" : String).length = 11 := rfl
  omega

theorem initStatKey_length (c : Init.Cfg) :
    (Init.statKey c).length = 9 + c.uniqueKey.length := by
  unfold Init.statKey
  rw [String.length_append]
  have h1 : ("lru-stat:" : String).length = 9 := rfl
  omega

theorem initValueKey_ne_statKey (c : Init.Cfg) (k : String) :
    Init.valueKey c k ≠ Init.statKey c := by
  intro h
  have hl := congrArg String.length h
  rw [initValueKey_length, initStatKey_length] at hl
  omega

theorem initAccessKey_ne_statKey (c : Init.Cfg) :
    Init.accessKey c ≠ Init.statKey c := by
  intro h
  have hl := congrArg String.length h
  rw [initAccessKey_length, initStatKey_length] at hl
  omega

/-! ## The key-splitting computations of the two miss paths -/

theorem afterFirstDelim_append (l rest : List Char)
    (h : ∀ ch ∈ l, ch ≠ '#') :
    afterFirstDelim (l ++ '#' :: '=' :: '#' :: rest) = some rest := by
  induction l with
  | nil => simp [afterFirstDelim]
  | cons ch t ih =>
    have hc : ch ≠ '#' := h ch (List.mem_cons_self ch t)
    show afterFirstDelim (ch :: (t ++ '#' :: '=' :: '#' :: rest)) = _
    unfold afterFirstDelim
    rw [if_neg (fun hand => hc hand.1)]
    exact ih (fun ch' hc' => h ch' (List.mem_cons_of_mem _ hc'))

/-- `lru.py`'s miss path computes `key.split('#=#', 1)[1]`; when the
unique key contains no `'#'`, the inserted delimiter is the first
occurrence and the result is exactly the user key. -/
theorem lruSplit_valueKey (c : LRU.Cfg) (k : String)
    (h : ∀ ch ∈ c.uniqueKey.data, ch ≠ '#') :
    splitAfterDelim (LRU.valueKey c k) = k := by
  unfold splitAfterDelim LRU.valueKey LRU.KEY_DELIMITER
  have hdata : ("lru-value:" ++ c.uniqueKey ++ "#=#" ++ k).data
      = (("lru-value:").data ++ c.uniqueKey.data) ++
        ('#' :: '=' :: '#' :: k.data) := by
    rw [String.data_append, String.data_append, String.data_append]
    simp [List.append_assoc]
  rw [hdata, afterFirstDelim_append]
  · rfl
  · intro ch hch
    rcases List.mem_append.mp hch with hl | hr
    · revert hl
      have : ∀ ch ∈ ("lru-value:").data, ch ≠ '#' := by decide
      exact this ch
    · exact h ch hr

theorem takeWhile_append_stop (p : Char → Bool) (l1 l2 : List Char)
    (a : Char) (h1 : ∀ ch ∈ l1, p ch = true) (h2 : p a = false) :
    (l1 ++ a :: l2).takeWhile p = l1 := by
  induction l1 with
  | nil => simp [List.takeWhile_cons, h2]
  | cons ch t ih =>
    show (ch :: (t ++ a :: l2)).takeWhile p = _
    rw [List.takeWhile_cons]
    rw [h1 ch (List.mem_cons_self ch t)]
    simp only [if_true]
    rw [ih (fun ch' hc' => h1 ch' (List.mem_cons_of_mem _ hc'))]

/-- `__init__.py`'s miss path computes `key.rsplit('#', 1)[1]`; when
the user key contains no `'#'`, the result is exactly the user key
(whatever the unique key holds, the joined key's last `'#'` is the
inserted delimiter). -/
theorem initSplit_valueKey (c : Init.Cfg) (k : String)
    (h : ∀ ch ∈ k.data, ch ≠ '#') :
    afterLastHash (Init.valueKey c k) = k := by
  unfold afterLastHash Init.valueKey
  have hdata : ("lru-value:" ++ c.uniqueKey ++ "#" ++ k).data
      = (("lru-value:").data ++ c.uniqueKey.data ++ ['#']) ++ k.data := by
    rw [String.data_append, String.data_append, String.data_append]
  rw [hdata, List.reverse_append]
  have hrev : ∀ ch ∈ k.data.reverse, (!(ch == '#')) = true := by
    intro ch hch
    simp [h ch (List.mem_reverse.mp hch)]
  have hsplit : (k.data.reverse ++
      (("lru-value:").data ++ c.uniqueKey.data ++ ['#']).reverse).takeWhile
        (fun ch => !(ch == '#')) = k.data.reverse := by
    have : (("lru-value:").data ++ c.uniqueKey.data ++ ['#']).reverse
        = '#' :: (("lru-value:").data ++ c.uniqueKey.data).reverse := by
      simp
    rw [this]
    exact takeWhile_append_stop _ _ _ _ hrev (by simp)
  rw [hsplit]
  simp

/-! ## Facts about the success path of `lru.py`'s `__setitem__` -/

theorem lruSetitemSuccess (c : LRU.Cfg) (st : RedisState) (now : Nat)
    (k : String) (v : PyVal) (j : Json) (hj : dumps v = some j) :
    alookup (LRU.setitem c now st k v).strings (LRU.valueKey c k) =
      some (.jsonOf j) ∧
    alookup (LRU.setitem c now st k v).expireAt (LRU.valueKey c k) =
      some (now + c.expiration) := by
  have hKS := lruValueKey_ne_statKey c k
  have hKA := lruValueKey_ne_accessKey c k
  unfold LRU.setitem
  rw [hj]
  dsimp only
  constructor
  · exact ((tail_lookup now _ _ "SET" 1 _ _ hKS).1).trans
      (((rExpire_lookup now _ _ _ _ hKA).1).trans
        (((rZadd_lookup now _ _ _ _ _ hKA).1).trans
          ((rSetex_self now _ _ _ _).1)))
  · exact ((tail_lookup now _ _ "SET" 1 _ _ hKS).2.2.2).trans
      (((rExpire_lookup now _ _ _ _ hKA).2.2.2).trans
        (((rZadd_lookup now _ _ _ _ _ hKA).2.2.2).trans
          ((rSetex_self now _ _ _ _).2)))

/-- C1: for a value the serializer accepts, `set k v` immediately
followed by `get k` (same clock reading, positive TTL) takes the hit
path and returns `json.loads(json.dumps(v))` — the value's image under
the JSON round trip, not necessarily a value Python-equal to `v`. -/
theorem c1_set_get_returns_json_roundtrip (c : LRU.Cfg)
    (st : RedisState) (now : Nat) (k : String) (v : PyVal) (j : Json)
    (hj : dumps v = some j) (hexp : 0 < c.expiration) :
    (LRU.getitem c now (LRU.setitem c now st k v) k).2 =
      LRU.GetResult.ok (loadJson j) := by
  obtain ⟨hs, he⟩ := lruSetitemSuccess c st now k v j hj
  have hget : rGet now (LRU.setitem c now st k v) (LRU.valueKey c k) =
      some (.jsonOf j) := by
    unfold rGet keyAlive
    rw [he, hs]
    simp [Nat.lt_add_of_pos_right hexp]
  unfold LRU.getitem
  dsimp only
  rw [hget]
  rfl

/-- Witness for C1: a concrete run with `v = "bar"`; the JSON round
trip of a string is itself, so the get returns a value equal to it. -/
theorem c1_witness :
    dumps (.str "bar") = some (.jstr "bar") ∧ 0 < (900 : Nat) ∧
    (LRU.getitem ⟨"u", 1024, 900⟩ 5
        (LRU.setitem ⟨"u", 1024, 900⟩ 5 RedisState.empty "foo"
          (.str "bar")) "foo").2 =
      LRU.GetResult.ok (loadJson (.jstr "bar")) :=
  ⟨rfl, by decide,
    c1_set_get_returns_json_roundtrip ⟨"u", 1024, 900⟩ RedisState.empty
      5 "foo" (.str "bar") (.jstr "bar") rfl (by decide)⟩

/-- C1 counterexample: the tuple `(1,)` is accepted by the serializer
(`json.dumps((1,)) = "[1]"`), yet `set` then `get` returns the list
`[1]`, which is not Python-equal to `(1,)` — the round trip does not
return a value equal to `v` for every accepted value. -/
theorem c1_counterexample :
    dumps (PyVal.tuple [.int 1]) = some (.jarr [.jint 1]) ∧
    (LRU.getitem ⟨"u", 1024, 900⟩ 5
        (LRU.setitem ⟨"u", 1024, 900⟩ 5 RedisState.empty "k"
          (.tuple [.int 1])) "k").2 =
      LRU.GetResult.ok (.list [.int 1]) ∧
    pyEq (.list [.int 1]) (.tuple [.int 1]) = false :=
  ⟨rfl, rfl, rfl⟩

/-- C3 (amended): in the `lru.py` variant with `maxSize = 3`, setting
"a", "b", "c", "d" in order on a fresh cache evicts exactly the oldest
entry: `get "a"` raises `KeyError` while "b", "c", "d" are all still
retrievable. -/
theorem c3_lru_scenario :
    (let c : LRU.Cfg := ⟨"unique_key", 3, 60⟩
     let st := LRU.setitem c 3 (LRU.setitem c 2 (LRU.setitem c 1
       (LRU.setitem c 0 RedisState.empty "a" (.str "A")) "b" (.str "B"))
       "c" (.str "C")) "d" (.str "D")
     (LRU.getitem c 4 st "a").2 = LRU.GetResult.keyError "a" ∧
     (LRU.getitem c 4 st "b").2 = LRU.GetResult.ok (.str "B") ∧
     (LRU.getitem c 4 st "c").2 = LRU.GetResult.ok (.str "C") ∧
     (LRU.getitem c 4 st "d").2 = LRU.GetResult.ok (.str "D")) :=
  ⟨rfl, rfl, rfl, rfl⟩

/-- C3 counterexample: in the `__init__.py` variant the same scenario
evicts TWO entries (`zrange(0, batch_size)` with `batch_size = 1` is
stop-inclusive), so "b" is also unretrievable, contradicting the claim
that "b", "c" and "d" each remain retrievable. -/
theorem c3_counterexample :
    (let c : Init.Cfg := ⟨"unique_key", 3, 60, true⟩
     let st := (Init.setitem c 3 ((Init.setitem c 2 ((Init.setitem c 1
       ((Init.setitem c 0 RedisState.empty "a" (.str "A")).1) "b"
       (.str "B")).1) "c" (.str "C")).1) "d" (.str "D")).1
     (Init.getitem c 4 st "a").2 = Init.GetResult.keyError "a" ∧
     (Init.getitem c 4 st "b").2 = Init.GetResult.keyError "b" ∧
     (Init.getitem c 4 st "c").2 = Init.GetResult.ok (.str "C") ∧
     (Init.getitem c 4 st "d").2 = Init.GetResult.ok (.str "D")) :=
  ⟨rfl, rfl, rfl, rfl⟩

/-- C9: the memoization decorator derives the cache key as
`repr((args, kwargs))`, so `f(10)` vs `f(x=10)` and `f(1)` vs `f(1.0)`
produce different keys, and calls whose reprs differ miss each other's
entries: after `f(10)` runs, its entry exists but the key for
`f(x=10)` is absent, and running `f(x=10)` creates a second entry. -/
theorem c9_decorator_key_is_repr_of_args :
    LRU.callKey [.int 10] [] = "((10,), \x7b\x7d)" ∧
    LRU.callKey [] [("x", .int 10)] = "((), \x7b'x': 10\x7d)" ∧
    LRU.callKey [.int 10] [] ≠ LRU.callKey [] [("x", .int 10)] ∧
    LRU.callKey [.int 1] [] ≠ LRU.callKey [.float 1] [] ∧
    (let c : LRU.Cfg := ⟨"m#f", 1024, 900⟩
     let st1 := (LRU.inner (fun _ _ => .int 20) c 0 RedisState.empty
       [.int 10] []).1
     (alookup st1.strings
       (LRU.valueKey c (LRU.callKey [.int 10] []))).isSome = true ∧
     alookup st1.strings
       (LRU.valueKey c (LRU.callKey [] [("x", .int 10)])) = Option.none ∧
     (LRU.inner (fun _ _ => .int 20) c 1 st1 []
       [("x", .int 10)]).1.strings.length = 2) :=
  ⟨rfl, rfl, by decide, by decide, rfl, rfl, rfl⟩

/-- C6 (code bug): `__contains__` is
`return bool(self.node.exist(key))`, but the redis-py client defines
`exists`, not `exist`; attribute lookup fails, so every containment
check raises `AttributeError` instead of returning a boolean computed
from the value store. -/
theorem c6_contains_raises_attribute_error (c : LRU.Cfg) (now : Nat)
    (st : RedisState) (k : String) :
    LRU.contains c now st k = LRU.PyOutcome.attributeError "exist" := by
  unfold LRU.contains
  rw [if_neg (by decide)]

/-- A counter reads the same in two states whose stat-key expiry and
hash entries agree. -/
theorem statOf_ext (now : Nat) (st' st : RedisState) (S f : String)
    (h1 : alookup st'.expireAt S = alookup st.expireAt S)
    (h2 : alookup st'.hashes S = alookup st.hashes S) :
    statOf now st' S f = statOf now st S f := by
  unfold statOf keyAlive
  rw [h1, h2]

/-- C4 (amended): in the `lru.py` variant, a `get` that finds a stored
payload failing deserialization increments `LOADS_ERROR`, deletes the
offending value entry, raises an ordinary `KeyError`, does not count a
hit and does not touch the access index. -/
theorem c4_lru_loads_error_self_heals (c : LRU.Cfg) (now : Nat)
    (st : RedisState) (k : String) (p : Payload)
    (hp : rGet now st (LRU.valueKey c k) = some p)
    (hl : pyLoads p = Option.none) :
    (LRU.getitem c now st k).2 =
      LRU.GetResult.keyError (LRU.valueKey c k) ∧
    statOf now (LRU.getitem c now st k).1 (LRU.statKey c) "LOADS_ERROR" =
      statOf now st (LRU.statKey c) "LOADS_ERROR" + 1 ∧
    alookup (LRU.getitem c now st k).1.strings (LRU.valueKey c k) =
      Option.none ∧
    statOf now (LRU.getitem c now st k).1 (LRU.statKey c) "HIT" =
      statOf now st (LRU.statKey c) "HIT" ∧
    alookup (LRU.getitem c now st k).1.zsets (LRU.accessKey c) =
      alookup st.zsets (LRU.accessKey c) ∧
    alookup (LRU.getitem c now st k).1.expireAt (LRU.accessKey c) =
      alookup st.expireAt (LRU.accessKey c) := by
  have hKS := lruValueKey_ne_statKey c k
  have hAS := lruAccessKey_ne_statKey c
  have hAK : LRU.accessKey c ≠ LRU.valueKey c k :=
    Ne.symm (lruValueKey_ne_accessKey c k)
  have hT : 0 < LRU.EXPIRATION_STAT_KEY := by decide
  unfold LRU.getitem
  dsimp only
  rw [hp]
  dsimp only
  rw [hl]
  dsimp only
  have hDel := rDel_lookup st (LRU.valueKey c k) (LRU.statKey c)
    (Ne.symm hKS)
  have hDelA := rDel_lookup st (LRU.valueKey c k) (LRU.accessKey c) hAK
  refine ⟨rfl, ?_, ?_, ?_, ?_, ?_⟩
  · rw [tail_statOf now _ _ _ _ 1 _ hT]
    rw [statOf_ext now _ st _ "LOADS_ERROR" hDel.2.2.2 hDel.2.2.1]
    simp
  · exact ((tail_lookup now _ _ "LOADS_ERROR" 1 _ _ hKS).1).trans
      (rDel_self st (LRU.valueKey c k)).1
  · rw [tail_statOf now _ _ _ _ 1 _ hT]
    rw [statOf_ext now _ st _ "HIT" hDel.2.2.2 hDel.2.2.1]
    simp
  · exact ((tail_lookup now _ _ "LOADS_ERROR" 1 _ _ hAS).2.1).trans
      hDelA.2.1
  · exact ((tail_lookup now _ _ "LOADS_ERROR" 1 _ _ hAS).2.2.2).trans
      hDelA.2.2.2

/-- Witness for C4's amended theorem: one corrupt entry on a concrete
state. -/
theorem c4_witness :
    (LRU.getitem ⟨"u", 1024, 900⟩ 5
        ⟨[("lru-value:u#=#bad", .corrupt "xx")], [], [], []⟩ "bad").2 =
      LRU.GetResult.keyError (LRU.valueKey ⟨"u", 1024, 900⟩ "bad") ∧
    statOf 5 (LRU.getitem ⟨"u", 1024, 900⟩ 5
        ⟨[("lru-value:u#=#bad", .corrupt "xx")], [], [], []⟩ "bad").1
      (LRU.statKey ⟨"u", 1024, 900⟩) "LOADS_ERROR" =
      statOf 5 (⟨[("lru-value:u#=#bad", .corrupt "xx")], [], [], []⟩ :
        RedisState) (LRU.statKey ⟨"u", 1024, 900⟩) "LOADS_ERROR" + 1 ∧
    alookup (LRU.getitem ⟨"u", 1024, 900⟩ 5
        ⟨[("lru-value:u#=#bad", .corrupt "xx")], [], [], []⟩ "bad").1.strings
      (LRU.valueKey ⟨"u", 1024, 900⟩ "bad") = Option.none ∧
    statOf 5 (LRU.getitem ⟨"u", 1024, 900⟩ 5
        ⟨[("lru-value:u#=#bad", .corrupt "xx")], [], [], []⟩ "bad").1
      (LRU.statKey ⟨"u", 1024, 900⟩) "HIT" =
      statOf 5 (⟨[("lru-value:u#=#bad", .corrupt "xx")], [], [], []⟩ :
        RedisState) (LRU.statKey ⟨"u", 1024, 900⟩) "HIT" ∧
    alookup (LRU.getitem ⟨"u", 1024, 900⟩ 5
        ⟨[("lru-value:u#=#bad", .corrupt "xx")], [], [], []⟩ "bad").1.zsets
      (LRU.accessKey ⟨"u", 1024, 900⟩) =
      alookup (⟨[("lru-value:u#=#bad", .corrupt "xx")], [], [], []⟩ :
        RedisState).zsets (LRU.accessKey ⟨"u", 1024, 900⟩) ∧
    alookup (LRU.getitem ⟨"u", 1024, 900⟩ 5
        ⟨[("lru-value:u#=#bad", .corrupt "xx")], [], [], []⟩ "bad").1.expireAt
      (LRU.accessKey ⟨"u", 1024, 900⟩) =
      alookup (⟨[("lru-value:u#=#bad", .corrupt "xx")], [], [], []⟩ :
        RedisState).expireAt (LRU.accessKey ⟨"u", 1024, 900⟩) :=
  c4_lru_loads_error_self_heals ⟨"u", 1024, 900⟩ 5
    ⟨[("lru-value:u#=#bad", .corrupt "xx")], [], [], []⟩ "bad"
    (.corrupt "xx") rfl rfl

/-- C4 counterexample: in the `__init__.py` variant a corrupt payload
is counted as a HIT, its recency is refreshed, the entry is NOT
deleted, and no deserialize-error counter exists — contradicting the
claim for that variant (only the raised error is still a
`KeyError`). -/
theorem c4_counterexample :
    (let c : Init.Cfg := ⟨"u", 1024, 900, true⟩
     let st : RedisState :=
       ⟨[("lru-value:u#bad", .corrupt "xx")], [], [], []⟩
     let r := Init.getitem c 5 st "bad"
     r.2 = Init.GetResult.keyError "lru-value:u#bad" ∧
     statOf 5 r.1 (Init.statKey c) "hit" = 1 ∧
     (alookup r.1.strings "lru-value:u#bad").isSome = true ∧
     statOf 5 r.1 (Init.statKey c) "serialize_error" = 0 ∧
     zmem r.1 (Init.accessKey c) "lru-value:u#bad" = some 5) :=
  ⟨rfl, rfl, rfl, rfl, rfl⟩

/-- C5: a `set` whose value fails serialization increments only the
serialize-error counter: no value entry is written for any key, the
access index entry and its expiry are unchanged, and the set counter
does not move.  In `lru.py` nothing reaches the caller; in
`__init__.py` the default (`hidden_exception = True`) returns
silently while the strict mode raises `LRUSerializeError`. -/
theorem c5_serialize_error_skips_write :
    (∀ (c : LRU.Cfg) (now : Nat) (st : RedisState) (k : String)
      (v : PyVal), dumps v = Option.none →
      ((∀ k' : String,
        alookup (LRU.setitem c now st k v).strings (LRU.valueKey c k') =
          alookup st.strings (LRU.valueKey c k')) ∧
       alookup (LRU.setitem c now st k v).zsets (LRU.accessKey c) =
         alookup st.zsets (LRU.accessKey c) ∧
       alookup (LRU.setitem c now st k v).expireAt (LRU.accessKey c) =
         alookup st.expireAt (LRU.accessKey c) ∧
       statOf now (LRU.setitem c now st k v) (LRU.statKey c) "SET" =
         statOf now st (LRU.statKey c) "SET" ∧
       statOf now (LRU.setitem c now st k v) (LRU.statKey c)
           "DUMPS_ERROR" =
         statOf now st (LRU.statKey c) "DUMPS_ERROR" + 1)) ∧
    (∀ (c : Init.Cfg) (now : Nat) (st : RedisState) (k : String)
      (v : PyVal), dumps v = Option.none → c.hiddenException = true →
      (Init.setitem c now st k v).2 = Init.SetOutcome.done) ∧
    (∀ (c : Init.Cfg) (now : Nat) (st : RedisState) (k : String)
      (v : PyVal), dumps v = Option.none → c.hiddenException = false →
      (Init.setitem c now st k v).2 =
        Init.SetOutcome.lruSerializeError) := by
  have hT : 0 < LRU.EXPIRATION_STAT_KEY := by decide
  refine ⟨?_, ?_, ?_⟩
  · intro c now st k v hv
    have hAS := lruAccessKey_ne_statKey c
    unfold LRU.setitem
    rw [hv]
    dsimp only
    refine ⟨?_, ?_, ?_, ?_, ?_⟩
    · intro k'
      exact (tail_lookup now st _ "DUMPS_ERROR" 1 _ _
        (lruValueKey_ne_statKey c k')).1
    · exact (tail_lookup now st _ "DUMPS_ERROR" 1 _ _ hAS).2.1
    · exact (tail_lookup now st _ "DUMPS_ERROR" 1 _ _ hAS).2.2.2
    · rw [tail_statOf now st _ _ _ 1 _ hT]
      simp
    · rw [tail_statOf now st _ _ _ 1 _ hT]
      simp
  · intro c now st k v hv hh
    unfold Init.setitem
    rw [hv]
    dsimp only
    rw [hh]
    rfl
  · intro c now st k v hv hh
    unfold Init.setitem
    rw [hv]
    dsimp only
    rw [hh]
    rfl

/-- Witness for C5: an unserializable object on a concrete state, for
both variants and both policies. -/
theorem c5_witness :
    ((∀ k' : String,
      alookup (LRU.setitem ⟨"u", 1024, 900⟩ 5 RedisState.empty "k"
          (.obj "o")).strings (LRU.valueKey ⟨"u", 1024, 900⟩ k') =
        alookup RedisState.empty.strings
          (LRU.valueKey ⟨"u", 1024, 900⟩ k')) ∧
     alookup (LRU.setitem ⟨"u", 1024, 900⟩ 5 RedisState.empty "k"
         (.obj "o")).zsets (LRU.accessKey ⟨"u", 1024, 900⟩) =
       alookup RedisState.empty.zsets (LRU.accessKey ⟨"u", 1024, 900⟩) ∧
     alookup (LRU.setitem ⟨"u", 1024, 900⟩ 5 RedisState.empty "k"
         (.obj "o")).expireAt (LRU.accessKey ⟨"u", 1024, 900⟩) =
       alookup RedisState.empty.expireAt
         (LRU.accessKey ⟨"u", 1024, 900⟩) ∧
     statOf 5 (LRU.setitem ⟨"u", 1024, 900⟩ 5 RedisState.empty "k"
         (.obj "o")) (LRU.statKey ⟨"u", 1024, 900⟩) "SET" =
       statOf 5 RedisState.empty (LRU.statKey ⟨"u", 1024, 900⟩) "SET" ∧
     statOf 5 (LRU.setitem ⟨"u", 1024, 900⟩ 5 RedisState.empty "k"
         (.obj "o")) (LRU.statKey ⟨"u", 1024, 900⟩) "DUMPS_ERROR" =
       statOf 5 RedisState.empty (LRU.statKey ⟨"u", 1024, 900⟩)
         "DUMPS_ERROR" + 1) ∧
    (Init.setitem ⟨"u", 1024, 900, true⟩ 5 RedisState.empty "k"
        (.obj "o")).2 = Init.SetOutcome.done ∧
    (Init.setitem ⟨"u", 1024, 900, false⟩ 5 RedisState.empty "k"
        (.obj "o")).2 = Init.SetOutcome.lruSerializeError :=
  ⟨c5_serialize_error_skips_write.1 ⟨"u", 1024, 900⟩ 5 RedisState.empty
      "k" (.obj "o") rfl,
    c5_serialize_error_skips_write.2.1 ⟨"u", 1024, 900, true⟩ 5
      RedisState.empty "k" (.obj "o") rfl rfl,
    c5_serialize_error_skips_write.2.2 ⟨"u", 1024, 900, false⟩ 5
      RedisState.empty "k" (.obj "o") rfl rfl⟩

/-- C7: a `get` whose value-store read comes back empty (absent or
expired key) increments only the miss counter and reports a
`KeyError`; the access index entry and the index's own expiry are left
completely unchanged — in both variants. -/
theorem c7_miss_leaves_index_unchanged :
    (∀ (c : LRU.Cfg) (now : Nat) (st : RedisState) (k : String),
      rGet now st (LRU.valueKey c k) = Option.none →
      ((LRU.getitem c now st k).2 =
        LRU.GetResult.keyError (splitAfterDelim (LRU.valueKey c k)) ∧
       statOf now (LRU.getitem c now st k).1 (LRU.statKey c) "MISS" =
         statOf now st (LRU.statKey c) "MISS" + 1 ∧
       alookup (LRU.getitem c now st k).1.zsets (LRU.accessKey c) =
         alookup st.zsets (LRU.accessKey c) ∧
       alookup (LRU.getitem c now st k).1.expireAt (LRU.accessKey c) =
         alookup st.expireAt (LRU.accessKey c))) ∧
    (∀ (c : Init.Cfg) (now : Nat) (st : RedisState) (k : String),
      rGet now st (Init.valueKey c k) = Option.none →
      ((Init.getitem c now st k).2 =
        Init.GetResult.keyError (afterLastHash (Init.valueKey c k)) ∧
       statOf now (Init.getitem c now st k).1 (Init.statKey c) "miss" =
         statOf now st (Init.statKey c) "miss" + 1 ∧
       alookup (Init.getitem c now st k).1.zsets (Init.accessKey c) =
         alookup st.zsets (Init.accessKey c) ∧
       alookup (Init.getitem c now st k).1.expireAt (Init.accessKey c) =
         alookup st.expireAt (Init.accessKey c))) := by
  have hT : 0 < LRU.EXPIRATION_STAT_KEY := by decide
  have hT2 : 0 < Init.STAT_KEY_EXPIRATION := by decide
  constructor
  · intro c now st k hp
    have hAS := lruAccessKey_ne_statKey c
    unfold LRU.getitem
    dsimp only
    rw [hp]
    dsimp only
    refine ⟨rfl, ?_, ?_, ?_⟩
    · rw [tail_statOf now st _ _ _ 1 _ hT]
      simp
    · exact (tail_lookup now st _ "MISS" 1 _ _ hAS).2.1
    · exact (tail_lookup now st _ "MISS" 1 _ _ hAS).2.2.2
  · intro c now st k hp
    have hAS := initAccessKey_ne_statKey c
    unfold Init.getitem
    dsimp only
    rw [hp]
    dsimp only
    refine ⟨rfl, ?_, ?_, ?_⟩
    · rw [tail_statOf now st _ _ _ 1 _ hT2]
      simp
    · exact (tail_lookup now st _ "miss" 1 _ _ hAS).2.1
    · exact (tail_lookup now st _ "miss" 1 _ _ hAS).2.2.2

/-- Witness for C7: a get on a fresh (empty) state, in both
variants. -/
theorem c7_witness :
    ((LRU.getitem ⟨"u", 1024, 900⟩ 5 RedisState.empty "k").2 =
       LRU.GetResult.keyError
         (splitAfterDelim (LRU.valueKey ⟨"u", 1024, 900⟩ "k")) ∧
     statOf 5 (LRU.getitem ⟨"u", 1024, 900⟩ 5 RedisState.empty "k").1
       (LRU.statKey ⟨"u", 1024, 900⟩) "MISS" =
       statOf 5 RedisState.empty (LRU.statKey ⟨"u", 1024, 900⟩) "MISS"
         + 1 ∧
     alookup (LRU.getitem ⟨"u", 1024, 900⟩ 5
         RedisState.empty "k").1.zsets (LRU.accessKey ⟨"u", 1024, 900⟩) =
       alookup RedisState.empty.zsets (LRU.accessKey ⟨"u", 1024, 900⟩) ∧
     alookup (LRU.getitem ⟨"u", 1024, 900⟩ 5
         RedisState.empty "k").1.expireAt
       (LRU.accessKey ⟨"u", 1024, 900⟩) =
       alookup RedisState.empty.expireAt
         (LRU.accessKey ⟨"u", 1024, 900⟩)) ∧
    ((Init.getitem ⟨"u", 1024, 900, true⟩ 5 RedisState.empty "k").2 =
       Init.GetResult.keyError
         (afterLastHash (Init.valueKey ⟨"u", 1024, 900, true⟩ "k")) ∧
     statOf 5 (Init.getitem ⟨"u", 1024, 900, true⟩ 5
         RedisState.empty "k").1 (Init.statKey ⟨"u", 1024, 900, true⟩)
       "miss" =
       statOf 5 RedisState.empty (Init.statKey ⟨"u", 1024, 900, true⟩)
         "miss" + 1 ∧
     alookup (Init.getitem ⟨"u", 1024, 900, true⟩ 5
         RedisState.empty "k").1.zsets
       (Init.accessKey ⟨"u", 1024, 900, true⟩) =
       alookup RedisState.empty.zsets
         (Init.accessKey ⟨"u", 1024, 900, true⟩) ∧
     alookup (Init.getitem ⟨"u", 1024, 900, true⟩ 5
         RedisState.empty "k").1.expireAt
       (Init.accessKey ⟨"u", 1024, 900, true⟩) =
       alookup RedisState.empty.expireAt
         (Init.accessKey ⟨"u", 1024, 900, true⟩)) :=
  ⟨c7_miss_leaves_index_unchanged.1 ⟨"u", 1024, 900⟩ 5
      RedisState.empty "k" rfl,
    c7_miss_leaves_index_unchanged.2 ⟨"u", 1024, 900, true⟩ 5
      RedisState.empty "k" rfl⟩

/-- C10: the two miss paths of `__getitem__` raise `KeyError` with
different payloads.  In `lru.py`, an absent entry yields the user key
(the full key with the prefix stripped at the first `"#=#"`), while a
present-but-undeserializable entry yields the full internal key
`lru-value:<identity>#=#<userKey>`; the two always differ.  The
`__init__.py` variant splits on a single `'#'` from the right, which
mangles user keys containing `'#'` (for user key `"a#b"` the
`KeyError` carries `"b"`), and its deserialize-failure path also
carries the full internal key. -/
theorem c10_keyerror_payloads :
    (∀ (c : LRU.Cfg) (now : Nat) (st : RedisState) (k : String),
      (∀ ch ∈ c.uniqueKey.data, ch ≠ '#') →
      rGet now st (LRU.valueKey c k) = Option.none →
      (LRU.getitem c now st k).2 = LRU.GetResult.keyError k) ∧
    (∀ (c : LRU.Cfg) (now : Nat) (st : RedisState) (k : String)
      (p : Payload), rGet now st (LRU.valueKey c k) = some p →
      pyLoads p = Option.none →
      (LRU.getitem c now st k).2 =
        LRU.GetResult.keyError (LRU.valueKey c k)) ∧
    (∀ (c : LRU.Cfg) (k : String), LRU.valueKey c k ≠ k) ∧
    (∀ (c : Init.Cfg) (now : Nat) (st : RedisState) (k : String)
      (p : Payload), c.hiddenException = true →
      rGet now st (Init.valueKey c k) = some p →
      pyLoads p = Option.none →
      (Init.getitem c now st k).2 =
        Init.GetResult.keyError (Init.valueKey c k)) ∧
    ((Init.getitem ⟨"cache", 1024, 900, true⟩ 0 RedisState.empty
        "a#b").2 = Init.GetResult.keyError "b" ∧ "b" ≠ "a#b") := by
  refine ⟨?_, ?_, lruValueKey_ne_userKey, ?_, rfl, by decide⟩
  · intro c now st k hu hp
    unfold LRU.getitem
    dsimp only
    rw [hp]
    dsimp only
    rw [lruSplit_valueKey c k hu]
  · intro c now st k p hp hl
    unfold LRU.getitem
    dsimp only
    rw [hp]
    dsimp only
    rw [hl]
  · intro c now st k p hh hp hl
    unfold Init.getitem
    dsimp only
    rw [hp]
    dsimp only
    rw [hl]
    dsimp only
    rw [hh]
    rfl

/-- Witness for C10: concrete instantiations of the three general
conjuncts. -/
theorem c10_witness :
    (LRU.getitem ⟨"u", 1024, 900⟩ 5 RedisState.empty "k1").2 =
      LRU.GetResult.keyError "k1" ∧
    (LRU.getitem ⟨"u", 1024, 900⟩ 5
        ⟨[("lru-value:u#=#k1", .corrupt "xx")], [], [], []⟩ "k1").2 =
      LRU.GetResult.keyError (LRU.valueKey ⟨"u", 1024, 900⟩ "k1") ∧
    LRU.valueKey ⟨"u", 1024, 900⟩ "k1" ≠ "k1" ∧
    (Init.getitem ⟨"u", 1024, 900, true⟩ 5
        ⟨[("lru-value:u#k1", .corrupt "xx")], [], [], []⟩ "k1").2 =
      Init.GetResult.keyError (Init.valueKey ⟨"u", 1024, 900, true⟩
        "k1") :=
  ⟨c10_keyerror_payloads.1 ⟨"u", 1024, 900⟩ 5 RedisState.empty "k1"
      (by decide) rfl,
    c10_keyerror_payloads.2.1 ⟨"u", 1024, 900⟩ 5
      ⟨[("lru-value:u#=#k1", .corrupt "xx")], [], [], []⟩ "k1"
      (.corrupt "xx") rfl rfl,
    c10_keyerror_payloads.2.2.1 ⟨"u", 1024, 900⟩ "k1",
    c10_keyerror_payloads.2.2.2.1 ⟨"u", 1024, 900, true⟩ 5
      ⟨[("lru-value:u#k1", .corrupt "xx")], [], [], []⟩ "k1"
      (.corrupt "xx") rfl rfl rfl⟩

/-- `HINCRBY` never touches the expiry table beyond the lazy purge of
its own key. -/
theorem rHincrby_expireAt (now : Nat) (st : RedisState)
    (hk field : String) (amount : Int) :
    (rHincrby now st hk field amount).expireAt =
      (purgeKey now st hk).expireAt := by
  unfold rHincrby
  dsimp only

/-- `zmem` only depends on the sorted set's entry. -/
theorem zmem_ext (st' st : RedisState) (A x : String)
    (h : alookup st'.zsets A = alookup st.zsets A) :
    zmem st' A x = zmem st A x := by
  unfold zmem
  rw [h]

/-- C2 counterexample: with `maxSize = 10` the claimed eviction batch
is 1 (10 % of maxSize, minimum 1), but a full index makes
`_ensure_room` fetch `zrange(0, 1)` — TWO members — and remove both,
incrementing `POP` by 2. -/
theorem c2_counterexample :
    (let c : LRU.Cfg := ⟨"u", 10, 600⟩
     let st : RedisState := ⟨[],
       [("lru-access:u",
         [("m0", 0), ("m1", 1), ("m2", 2), ("m3", 3), ("m4", 4),
          ("m5", 5), ("m6", 6), ("m7", 7), ("m8", 8), ("m9", 9)])],
       [], []⟩
     LRU.onceCleanSize c = 1 ∧
     max (c.maxSize / 10) 1 = 1 ∧
     rZcard 20 st (LRU.accessKey c) = 10 ∧
     rZrange 20 st (LRU.accessKey c) (LRU.onceCleanSize c) =
       ["m0", "m1"] ∧
     statOf 20 (LRU.ensureRoom c 20 st).1 (LRU.statKey c) "POP" = 2 ∧
     rZcard 20 (LRU.ensureRoom c 20 st).1 (LRU.accessKey c) = 8 ∧
     (2 : Nat) ≠ 1) :=
  ⟨rfl, rfl, rfl, by decide, rfl, rfl, by decide⟩

/-- C2 (amended): when the access index holds at least `maxSize`
entries, `_ensure_room` evicts the `⌊maxSize/10⌋ + 1` oldest members
(the backend range `zrange(0, stop)` is stop-inclusive), capped by the
index size: it returns `False`, the fetched batch is the prefix of the
members sorted ascending by (score, member), each fetched key's value
entry is deleted and its index entry removed, and — in the `lru.py`
variant only — the `POP` counter grows by the number removed, while
the `__init__.py` variant removes `(⌊maxSize/10⌋ or 1) + 1` members
and increments no counter at all. -/
theorem c2_ensure_room_batch :
    (∀ (c : LRU.Cfg) (now : Nat) (st : RedisState),
      ¬ rZcard now st (LRU.accessKey c) < c.maxSize →
      (∀ k ∈ rZrange now st (LRU.accessKey c) (LRU.onceCleanSize c),
        k ≠ LRU.statKey c) →
      (∀ k ∈ rZrange now st (LRU.accessKey c) (LRU.onceCleanSize c),
        k ≠ LRU.accessKey c) →
      ((LRU.ensureRoom c now st).2 = false ∧
       (rZrange now st (LRU.accessKey c) (LRU.onceCleanSize c)).length =
         min (LRU.onceCleanSize c + 1)
           (rZcard now st (LRU.accessKey c)) ∧
       (keyAlive now st (LRU.accessKey c) = true →
         rZrange now st (LRU.accessKey c) (LRU.onceCleanSize c) =
           ((zsort ((alookup st.zsets (LRU.accessKey c)).getD [])).map
             Prod.fst).take (LRU.onceCleanSize c + 1)) ∧
       List.Pairwise zrel
         (zsort ((alookup st.zsets (LRU.accessKey c)).getD [])) ∧
       (∀ k ∈ rZrange now st (LRU.accessKey c) (LRU.onceCleanSize c),
         alookup (LRU.ensureRoom c now st).1.strings k = Option.none ∧
         zmem (LRU.ensureRoom c now st).1 (LRU.accessKey c) k =
           Option.none) ∧
       statOf now (LRU.ensureRoom c now st).1 (LRU.statKey c) "POP" =
         statOf now st (LRU.statKey c) "POP" +
           ((rZrange now st (LRU.accessKey c)
             (LRU.onceCleanSize c)).length : Int))) ∧
    (∀ (c : Init.Cfg) (now : Nat) (st : RedisState),
      ¬ rZcard now st (Init.accessKey c) < c.maxSize →
      (∀ k ∈ rZrange now st (Init.accessKey c) (Init.batchSize c),
        k ≠ Init.statKey c) →
      (∀ k ∈ rZrange now st (Init.accessKey c) (Init.batchSize c),
        k ≠ Init.accessKey c) →
      ((Init.ensureRoom c now st).2 = false ∧
       (rZrange now st (Init.accessKey c) (Init.batchSize c)).length =
         min (Init.batchSize c + 1)
           (rZcard now st (Init.accessKey c)) ∧
       (∀ k ∈ rZrange now st (Init.accessKey c) (Init.batchSize c),
         alookup (Init.ensureRoom c now st).1.strings k = Option.none ∧
         zmem (Init.ensureRoom c now st).1 (Init.accessKey c) k =
           Option.none) ∧
       (∀ f : String,
         statOf now (Init.ensureRoom c now st).1 (Init.statKey c) f =
           statOf now st (Init.statKey c) f))) := by
  constructor
  · intro c now st hfull hkS hkA
    have hAS := lruAccessKey_ne_statKey c
    unfold LRU.ensureRoom
    dsimp only
    rw [if_neg hfull]
    dsimp only
    refine ⟨rfl, rZrange_length now st _ _, ?_, pairwise_zsort _, ?_, ?_⟩
    · intro halive
      unfold rZrange
      rw [if_pos halive]
    · intro k hk
      constructor
      · exact ((rHincrby_lookup now _ _ "POP" _ k (hkS k hk)).1).trans
          (fold_strings_none now (LRU.accessKey c) _ st k hk)
      · exact (zmem_ext _ _ _ k
          ((rHincrby_lookup now _ _ "POP" _ (LRU.accessKey c)
            hAS).2.1)).trans
          (fold_zmem_none now (LRU.accessKey c) _ st k hk hkA)
    · rw [statOf_rHincrby_self]
      have hfold := fold_lookup now (LRU.accessKey c) _ st
        (LRU.statKey c) (fun k hk => Ne.symm (hkS k hk)) (Ne.symm hAS)
      rw [statOf_ext now _ st _ "POP" hfold.2.2.2 hfold.2.2.1]
  · intro c now st hfull hkS hkA
    have hAS := initAccessKey_ne_statKey c
    unfold Init.ensureRoom
    dsimp only
    rw [if_neg hfull]
    dsimp only
    refine ⟨rfl, rZrange_length now st _ _, ?_, ?_⟩
    · intro k hk
      exact ⟨fold_strings_none now (Init.accessKey c) _ st k hk,
        fold_zmem_none now (Init.accessKey c) _ st k hk hkA⟩
    · intro f
      have hfold := fold_lookup now (Init.accessKey c) _ st
        (Init.statKey c) (fun k hk => Ne.symm (hkS k hk)) (Ne.symm hAS)
      exact statOf_ext now _ st _ f hfold.2.2.2 hfold.2.2.1

/-- Witness for C2's amended theorem: the `maxSize = 10`, ten-member
state, in both variants. -/
theorem c2_witness :
    (let c : LRU.Cfg := ⟨"u", 10, 600⟩
     let st : RedisState := ⟨[],
       [("lru-access:u",
         [("m0", 0), ("m1", 1), ("m2", 2), ("m3", 3), ("m4", 4),
          ("m5", 5), ("m6", 6), ("m7", 7), ("m8", 8), ("m9", 9)])],
       [], []⟩
     (LRU.ensureRoom c 20 st).2 = false ∧
     (rZrange 20 st (LRU.accessKey c) (LRU.onceCleanSize c)).length =
       min (LRU.onceCleanSize c + 1) (rZcard 20 st (LRU.accessKey c)) ∧
     statOf 20 (LRU.ensureRoom c 20 st).1 (LRU.statKey c) "POP" =
       statOf 20 st (LRU.statKey c) "POP" +
         ((rZrange 20 st (LRU.accessKey c)
           (LRU.onceCleanSize c)).length : Int)) ∧
    (let c : Init.Cfg := ⟨"u", 10, 600, true⟩
     let st : RedisState := ⟨[],
       [("lru-access:u",
         [("m0", 0), ("m1", 1), ("m2", 2), ("m3", 3), ("m4", 4),
          ("m5", 5), ("m6", 6), ("m7", 7), ("m8", 8), ("m9", 9)])],
       [], []⟩
     (Init.ensureRoom c 20 st).2 = false ∧
     ∀ f : String,
       statOf 20 (Init.ensureRoom c 20 st).1 (Init.statKey c) f =
         statOf 20 st (Init.statKey c) f) := by
  constructor
  · have h := c2_ensure_room_batch.1 ⟨"u", 10, 600⟩ 20
      ⟨[], [("lru-access:u",
        [("m0", 0), ("m1", 1), ("m2", 2), ("m3", 3), ("m4", 4),
         ("m5", 5), ("m6", 6), ("m7", 7), ("m8", 8), ("m9", 9)])],
       [], []⟩ (by decide) (by decide) (by decide)
    exact ⟨h.1, h.2.1, h.2.2.2.2.2⟩
  · have h := c2_ensure_room_batch.2 ⟨"u", 10, 600, true⟩ 20
      ⟨[], [("lru-access:u",
        [("m0", 0), ("m1", 1), ("m2", 2), ("m3", 3), ("m4", 4),
         ("m5", 5), ("m6", 6), ("m7", 7), ("m8", 8), ("m9", 9)])],
       [], []⟩ (by decide) (by decide) (by decide)
    exact ⟨h.1, h.2.2.2⟩

/-- C8 counterexample: `lru.py`'s `_ensure_room` pipeline increments
`POP` with no `EXPIRE` of the stat key in that batch — after an
eviction at time 20, the stat key still carries its old expiry
99999999, not `20 + 30 days`. -/
theorem c8_counterexample :
    (let c : LRU.Cfg := ⟨"u", 10, 600⟩
     let st : RedisState := ⟨[],
       [("lru-access:u",
         [("m0", 0), ("m1", 1), ("m2", 2), ("m3", 3), ("m4", 4),
          ("m5", 5), ("m6", 6), ("m7", 7), ("m8", 8), ("m9", 9)])],
       [("lru-stat:u", [("POP", 0)])], [("lru-stat:u", 99999999)]⟩
     statOf 20 (LRU.ensureRoom c 20 st).1 (LRU.statKey c) "POP" = 2 ∧
     alookup (LRU.ensureRoom c 20 st).1.expireAt (LRU.statKey c) =
       some 99999999 ∧
     some (99999999 : Nat) ≠ some (20 + LRU.EXPIRATION_STAT_KEY)) :=
  ⟨rfl, rfl, by decide⟩

/-- C8 (amended): every stats-counter increment issued by `lru.py`
outside `_ensure_room` — serialize-error, successful set, miss,
deserialize-error, hit, delete — and every increment issued by
`__init__.py` is paired in its own pipeline with an `EXPIRE` of the
stat key to the 30-day horizon; the one exception is `lru.py`'s
eviction pipeline, which increments `POP` by the number of evicted
keys while leaving the stat key's expiry untouched (a subsequent
successful-set pipeline resets it). -/
theorem c8_increment_resets_stat_expiry :
    (∀ (c : LRU.Cfg) (now : Nat) (st : RedisState) (k : String)
      (v : PyVal), dumps v = Option.none →
      alookup (LRU.setitem c now st k v).expireAt (LRU.statKey c) =
        some (now + LRU.EXPIRATION_STAT_KEY)) ∧
    (∀ (c : LRU.Cfg) (now : Nat) (st : RedisState) (k : String)
      (v : PyVal) (j : Json), dumps v = some j →
      alookup (LRU.setitem c now st k v).expireAt (LRU.statKey c) =
        some (now + LRU.EXPIRATION_STAT_KEY)) ∧
    (∀ (c : LRU.Cfg) (now : Nat) (st : RedisState) (k : String),
      rGet now st (LRU.valueKey c k) = Option.none →
      alookup (LRU.getitem c now st k).1.expireAt (LRU.statKey c) =
        some (now + LRU.EXPIRATION_STAT_KEY)) ∧
    (∀ (c : LRU.Cfg) (now : Nat) (st : RedisState) (k : String)
      (p : Payload), rGet now st (LRU.valueKey c k) = some p →
      pyLoads p = Option.none →
      alookup (LRU.getitem c now st k).1.expireAt (LRU.statKey c) =
        some (now + LRU.EXPIRATION_STAT_KEY)) ∧
    (∀ (c : LRU.Cfg) (now : Nat) (st : RedisState) (k : String)
      (p : Payload) (w : PyVal), rGet now st (LRU.valueKey c k) = some p →
      pyLoads p = some w →
      alookup (LRU.getitem c now st k).1.expireAt (LRU.statKey c) =
        some (now + LRU.EXPIRATION_STAT_KEY)) ∧
    (∀ (c : LRU.Cfg) (now : Nat) (st : RedisState) (k : String),
      alookup (LRU.delitem c now st k).expireAt (LRU.statKey c) =
        some (now + LRU.EXPIRATION_STAT_KEY)) ∧
    (∀ (c : LRU.Cfg) (now : Nat) (st : RedisState),
      ¬ rZcard now st (LRU.accessKey c) < c.maxSize →
      (∀ k ∈ rZrange now st (LRU.accessKey c) (LRU.onceCleanSize c),
        k ≠ LRU.statKey c) →
      keyAlive now st (LRU.statKey c) = true →
      (statOf now (LRU.ensureRoom c now st).1 (LRU.statKey c) "POP" =
        statOf now st (LRU.statKey c) "POP" +
          ((rZrange now st (LRU.accessKey c)
            (LRU.onceCleanSize c)).length : Int) ∧
       alookup (LRU.ensureRoom c now st).1.expireAt (LRU.statKey c) =
         alookup st.expireAt (LRU.statKey c))) ∧
    (∀ (c : Init.Cfg) (now : Nat) (st : RedisState) (k : String)
      (v : PyVal), dumps v = Option.none →
      alookup (Init.setitem c now st k v).1.expireAt (Init.statKey c) =
        some (now + Init.STAT_KEY_EXPIRATION)) ∧
    (∀ (c : Init.Cfg) (now : Nat) (st : RedisState) (k : String)
      (v : PyVal) (j : Json), dumps v = some j →
      alookup (Init.setitem c now st k v).1.expireAt (Init.statKey c) =
        some (now + Init.STAT_KEY_EXPIRATION)) ∧
    (∀ (c : Init.Cfg) (now : Nat) (st : RedisState) (k : String),
      rGet now st (Init.valueKey c k) = Option.none →
      alookup (Init.getitem c now st k).1.expireAt (Init.statKey c) =
        some (now + Init.STAT_KEY_EXPIRATION)) ∧
    (∀ (c : Init.Cfg) (now : Nat) (st : RedisState) (k : String)
      (p : Payload), rGet now st (Init.valueKey c k) = some p →
      alookup (Init.getitem c now st k).1.expireAt (Init.statKey c) =
        some (now + Init.STAT_KEY_EXPIRATION)) := by
  refine ⟨?_, ?_, ?_, ?_, ?_, ?_, ?_, ?_, ?_, ?_, ?_⟩
  · intro c now st k v hv
    unfold LRU.setitem
    rw [hv]
    dsimp only
    exact tail_expireAt now st _ "DUMPS_ERROR" 1 _
  · intro c now st k v j hj
    unfold LRU.setitem
    rw [hj]
    dsimp only
    exact tail_expireAt now _ _ "SET" 1 _
  · intro c now st k hp
    unfold LRU.getitem
    dsimp only
    rw [hp]
    dsimp only
    exact tail_expireAt now st _ "MISS" 1 _
  · intro c now st k p hp hl
    unfold LRU.getitem
    dsimp only
    rw [hp]
    dsimp only
    rw [hl]
    dsimp only
    exact tail_expireAt now _ _ "LOADS_ERROR" 1 _
  · intro c now st k p w hp hl
    unfold LRU.getitem
    dsimp only
    rw [hp]
    dsimp only
    rw [hl]
    dsimp only
    exact tail_expireAt now _ _ "HIT" 1 _
  · intro c now st k
    unfold LRU.delitem
    dsimp only
    exact tail_expireAt now _ _ "DEL" 1 _
  · intro c now st hfull hkS hAlive
    have hAS := lruAccessKey_ne_statKey c
    unfold LRU.ensureRoom
    dsimp only
    rw [if_neg hfull]
    dsimp only
    have hfold := fold_lookup now (LRU.accessKey c) _ st
      (LRU.statKey c) (fun k hk => Ne.symm (hkS k hk)) (Ne.symm hAS)
    constructor
    · rw [statOf_rHincrby_self]
      rw [statOf_ext now _ st _ "POP" hfold.2.2.2 hfold.2.2.1]
    · rw [rHincrby_expireAt]
      rw [purgeKey_id now _ _ (by
        rw [keyAlive_ext now st _ (LRU.statKey c) hfold.2.2.2]
        exact hAlive)]
      exact hfold.2.2.2
  · intro c now st k v hv
    unfold Init.setitem
    rw [hv]
    dsimp only
    split <;> exact tail_expireAt now st _ "serialize_error" 1 _
  · intro c now st k v j hj
    unfold Init.setitem
    rw [hj]
    dsimp only
    exact tail_expireAt now _ _ "set" 1 _
  · intro c now st k hp
    unfold Init.getitem
    dsimp only
    rw [hp]
    dsimp only
    exact tail_expireAt now st _ "miss" 1 _
  · intro c now st k p hp
    unfold Init.getitem
    dsimp only
    rw [hp]
    dsimp only
    have he := tail_expireAt now
      (rExpire now (rZadd now st (Init.accessKey c) (Init.valueKey c k)
        now) (Init.accessKey c) c.expiration)
      (Init.statKey c) "hit" 1 Init.STAT_KEY_EXPIRATION
    split
    · split <;> exact he
    · exact he

/-- Witness for C8's amended theorem: each code path instantiated on a
concrete state. -/
theorem c8_witness :
    alookup (LRU.setitem ⟨"u", 1024, 900⟩ 5 RedisState.empty "k"
        (.obj "o")).expireAt (LRU.statKey ⟨"u", 1024, 900⟩) =
      some (5 + LRU.EXPIRATION_STAT_KEY) ∧
    alookup (LRU.setitem ⟨"u", 1024, 900⟩ 5 RedisState.empty "k"
        (.str "a")).expireAt (LRU.statKey ⟨"u", 1024, 900⟩) =
      some (5 + LRU.EXPIRATION_STAT_KEY) ∧
    alookup (LRU.getitem ⟨"u", 1024, 900⟩ 5 RedisState.empty
        "k").1.expireAt (LRU.statKey ⟨"u", 1024, 900⟩) =
      some (5 + LRU.EXPIRATION_STAT_KEY) ∧
    alookup (LRU.getitem ⟨"u", 1024, 900⟩ 5
        ⟨[("lru-value:u#=#k", .corrupt "xx")], [], [], []⟩
        "k").1.expireAt (LRU.statKey ⟨"u", 1024, 900⟩) =
      some (5 + LRU.EXPIRATION_STAT_KEY) ∧
    alookup (LRU.getitem ⟨"u", 1024, 900⟩ 5
        ⟨[("lru-value:u#=#k", .jsonOf (.jstr "a"))], [], [], []⟩
        "k").1.expireAt (LRU.statKey ⟨"u", 1024, 900⟩) =
      some (5 + LRU.EXPIRATION_STAT_KEY) ∧
    alookup (LRU.delitem ⟨"u", 1024, 900⟩ 5 RedisState.empty
        "k").expireAt (LRU.statKey ⟨"u", 1024, 900⟩) =
      some (5 + LRU.EXPIRATION_STAT_KEY) ∧
    (statOf 20 (LRU.ensureRoom ⟨"u", 10, 600⟩ 20 ⟨[],
        [("lru-access:u",
          [("m0", 0), ("m1", 1), ("m2", 2), ("m3", 3), ("m4", 4),
           ("m5", 5), ("m6", 6), ("m7", 7), ("m8", 8), ("m9", 9)])],
        [], []⟩).1 (LRU.statKey ⟨"u", 10, 600⟩) "POP" =
      statOf 20 (⟨[],
        [("lru-access:u",
          [("m0", 0), ("m1", 1), ("m2", 2), ("m3", 3), ("m4", 4),
           ("m5", 5), ("m6", 6), ("m7", 7), ("m8", 8), ("m9", 9)])],
        [], []⟩ : RedisState) (LRU.statKey ⟨"u", 10, 600⟩) "POP" +
        ((rZrange 20 (⟨[],
          [("lru-access:u",
            [("m0", 0), ("m1", 1), ("m2", 2), ("m3", 3), ("m4", 4),
             ("m5", 5), ("m6", 6), ("m7", 7), ("m8", 8), ("m9", 9)])],
          [], []⟩ : RedisState) (LRU.accessKey ⟨"u", 10, 600⟩)
          (LRU.onceCleanSize ⟨"u", 10, 600⟩)).length : Int) ∧
     alookup (LRU.ensureRoom ⟨"u", 10, 600⟩ 20 ⟨[],
        [("lru-access:u",
          [("m0", 0), ("m1", 1), ("m2", 2), ("m3", 3), ("m4", 4),
           ("m5", 5), ("m6", 6), ("m7", 7), ("m8", 8), ("m9", 9)])],
        [], []⟩).1.expireAt (LRU.statKey ⟨"u", 10, 600⟩) =
      alookup (⟨[],
        [("lru-access:u",
          [("m0", 0), ("m1", 1), ("m2", 2), ("m3", 3), ("m4", 4),
           ("m5", 5), ("m6", 6), ("m7", 7), ("m8", 8), ("m9", 9)])],
        [], []⟩ : RedisState).expireAt (LRU.statKey ⟨"u", 10, 600⟩)) ∧
    alookup (Init.setitem ⟨"u", 1024, 900, true⟩ 5 RedisState.empty "k"
        (.obj "o")).1.expireAt (Init.statKey ⟨"u", 1024, 900, true⟩) =
      some (5 + Init.STAT_KEY_EXPIRATION) ∧
    alookup (Init.setitem ⟨"u", 1024, 900, true⟩ 5 RedisState.empty "k"
        (.str "a")).1.expireAt (Init.statKey ⟨"u", 1024, 900, true⟩) =
      some (5 + Init.STAT_KEY_EXPIRATION) ∧
    alookup (Init.getitem ⟨"u", 1024, 900, true⟩ 5 RedisState.empty
        "k").1.expireAt (Init.statKey ⟨"u", 1024, 900, true⟩) =
      some (5 + Init.STAT_KEY_EXPIRATION) ∧
    alookup (Init.getitem ⟨"u", 1024, 900, true⟩ 5
        ⟨[("lru-value:u#k", .jsonOf (.jstr "a"))], [], [], []⟩
        "k").1.expireAt (Init.statKey ⟨"u", 1024, 900, true⟩) =
      some (5 + Init.STAT_KEY_EXPIRATION) :=
  ⟨c8_increment_resets_stat_expiry.1 ⟨"u", 1024, 900⟩ 5
      RedisState.empty "k" (.obj "o") rfl,
    c8_increment_resets_stat_expiry.2.1 ⟨"u", 1024, 900⟩ 5
      RedisState.empty "k" (.str "a") (.jstr "a") rfl,
    c8_increment_resets_stat_expiry.2.2.1 ⟨"u", 1024, 900⟩ 5
      RedisState.empty "k" rfl,
    c8_increment_resets_stat_expiry.2.2.2.1 ⟨"u", 1024, 900⟩ 5
      ⟨[("lru-value:u#=#k", .corrupt "xx")], [], [], []⟩ "k"
      (.corrupt "xx") rfl rfl,
    c8_increment_resets_stat_expiry.2.2.2.2.1 ⟨"u", 1024, 900⟩ 5
      ⟨[("lru-value:u#=#k", .jsonOf (.jstr "a"))], [], [], []⟩ "k"
      (.jsonOf (.jstr "a")) (.str "a") rfl rfl,
    c8_increment_resets_stat_expiry.2.2.2.2.2.1 ⟨"u", 1024, 900⟩ 5
      RedisState.empty "k",
    c8_increment_resets_stat_expiry.2.2.2.2.2.2.1 ⟨"u", 10, 600⟩ 20
      ⟨[], [("lru-access:u",
        [("m0", 0), ("m1", 1), ("m2", 2), ("m3", 3), ("m4", 4),
         ("m5", 5), ("m6", 6), ("m7", 7), ("m8", 8), ("m9", 9)])],
       [], []⟩ (by decide) (by decide) rfl,
    c8_increment_resets_stat_expiry.2.2.2.2.2.2.2.1
      ⟨"u", 1024, 900, true⟩ 5 RedisState.empty "k" (.obj "o") rfl,
    c8_increment_resets_stat_expiry.2.2.2.2.2.2.2.2.1
      ⟨"u", 1024, 900, true⟩ 5 RedisState.empty "k" (.str "a")
      (.jstr "a") rfl,
    c8_increment_resets_stat_expiry.2.2.2.2.2.2.2.2.2.1
      ⟨"u", 1024, 900, true⟩ 5 RedisState.empty "k" rfl,
    c8_increment_resets_stat_expiry.2.2.2.2.2.2.2.2.2.2
      ⟨"u", 1024, 900, true⟩ 5
      ⟨[("lru-value:u#k", .jsonOf (.jstr "a"))], [], [], []⟩ "k"
      (.jsonOf (.jstr "a")) rfl⟩

end RedisLRU
